import Mathlib

/-!
# Remote-storage supervisor (`src/storage/rclone.go`)

A shallow embedding of the rclone supervisor of Cosmos-Server: the exit monitor with its
restart circuit, the start of the engine (`RunRCloneCommand`, `startRCloneProcess`), the
control client `runRDC`, the mount orchestration (`mountRemoteStorage`, `getStorageList`,
`remountAll`, `unmountAll`), the readiness wait of `restart`, and the fingerprint check
`fileChanged`.

Conventions of the embedding.

* A Go `error` is the text of its message; a nil-able error is an `Option String`.
* The operating system, the HTTP client, the clock and the library decoders are operations of
  a record `Sys σ` acting on an arbitrary system state `σ`; every theorem holds for every
  such record, so for every behaviour of the outside world.
* Everything a function does to the outside world is appended to a trace of `Event`s, in
  program order. Diagnostics written through `utils.Debug/Log/Warn/Error/MajorError` are
  events as well.
* `restartCount` is a Go `int`; it goes up by one per process exit, so it stays far away
  from the 64-bit bound and is kept as an `Int` without wrap-around.
* Goroutines are run one after the other and the mutexes are left out: a function of the
  embedding is one uninterrupted run of the Go function. A loop without a bound in the Go
  text takes fuel, and the theorems say how much fuel is enough.
* `mountRemoteStorage` is written in three pieces that follow the Go text in order:
  `prepareMountPoint`, the body of `mountRemoteStorage`, and `mountEmptyDir`.
* The reply to `mount/listmounts` is decoded as `json.Unmarshal` decodes it into the struct of
  `unmountAll`: `jsonUnmarshal` reads the text, `decodeMountList` picks the member `mounts`
  and the `MountPoint` of each element.
* `superviseEngine` is the wiring of `InitRemoteStorage`: the engine is started once and then
  on each restart signal, and an exit is handled only for an engine started there.
-/

namespace Storage

/-! ## Time -/

/-- A `time.Time`, as the instant it denotes: nanoseconds counted from the zero value
`time.Time{}` (1 January of year 1, UTC). -/
structure Time where
  ns : Int
deriving DecidableEq, Repr

/-- A `time.Duration`: a signed 64-bit count of nanoseconds. -/
abbrev Duration := Int

/-- The constant `time.Second`. -/
def Second : Duration := 1000000000

/-- The smallest `time.Duration`, `-1 << 63`. -/
def minDuration : Duration := -9223372036854775808

/-- The largest `time.Duration`, `1<<63 - 1`. -/
def maxDuration : Duration := 9223372036854775807

/-- The zero value `time.Time{}`. -/
def Time.zero : Time := ⟨0⟩

/-- `t.Sub(u)`: the duration `t - u`, saturated to the range of `time.Duration` as the Go
library does. -/
def Time.Sub (t u : Time) : Duration :=
  let d := t.ns - u.ns
  if d < minDuration then minDuration
  else if maxDuration < d then maxDuration
  else d

/-- `t.Equal(u)`: both denote the same instant. -/
def Time.Equal (t u : Time) : Bool :=
  decide (t.ns = u.ns)

/-! ## Events -/

/-- Severity of a diagnostic, one per logging function of `utils`. -/
inductive Level where
  | debug
  | log
  | warn
  | error
  | majorError
deriving DecidableEq, Repr

/-- An `http.Request` as `runRDC` builds it: always a POST, with basic authentication. -/
structure Request where
  method : String
  url : String
  contentType : String
  body : String
  authUser : String
  authPass : String
deriving DecidableEq, Repr

/-- The error of a failed `os.Stat`, with what `os.IsNotExist` says about it. -/
structure StatError where
  msg : String
  notExist : Bool
deriving DecidableEq, Repr

/-- What the program does to the outside world, in program order: diagnostics written through
`utils`, the send on `rcloneRestart`, and every call of an operation of `Sys` or `ExecSys`,
with what the call returned where the program looks at it. -/
inductive Event where
  | diag (level : Level) (msg : String) (err : Option String)
  | restartSignal
  | sleep (d : Duration)
  | stat (path : String) (err : Option StatError)
  | unmount (path : String) (force : Bool)
  | mkdirAll (path : String) (err : Option String)
  | readDir (path : String) (files : List String) (err : Option String)
  | exec (name : String) (args : List String) (out : String) (err : Option String)
  | httpDo (req : Request)
  | fileOpen (path : String) (err : Option String)
  | fileHash (path : String) (sum : String) (err : Option String)
  | signal (pid : Nat) (err : Option String)
  | wait (pid : Nat)
  | pipe (stream : String) (err : Option String)
  | spawn (name : String) (args : List String) (err : Option String)
deriving DecidableEq, Repr

/-- Whether the event is a fatal-level diagnostic (`utils.MajorError`). -/
def Event.isMajorError : Event → Bool
  | .diag .majorError _ _ => true
  | _ => false

/-- Whether the event is the send `rcloneRestart <- true`. -/
def Event.isRestartSignal : Event → Bool
  | .restartSignal => true
  | _ => false

/-- Number of fatal-level diagnostics in a trace. -/
def fatalCount (tr : List Event) : Nat :=
  (tr.filter Event.isMajorError).length

/-- Whether a trace holds a restart signal. -/
def signalsRestart (tr : List Event) : Bool :=
  tr.any Event.isRestartSignal

/-! ## Process supervisor -/

/-- An `*exec.Cmd` that is not nil: the process it started (nil before `Start`), and the error
`cmd.Wait()` returns when the process has exited. -/
structure Cmd where
  Process : Option Nat
  waitErr : Option String
deriving DecidableEq, Repr

/-- The package-level variables of the supervisor. `rcloneCmd` is `none` for a nil pointer. -/
structure Supervisor where
  rcloneCmd : Option Cmd
  restartCount : Int
  lastRestart : Time
  isWaitingToStop : Bool
deriving DecidableEq, Repr

/-- The variables as the Go runtime initialises them. -/
def Supervisor.init : Supervisor :=
  { rcloneCmd := none, restartCount := 0, lastRestart := Time.zero, isWaitingToStop := false }

/-- The exit monitor. `cmd` is the pointer it was launched with, `now` the value `time.Now()`
returns once the lock is held. The result is `none` when the goroutine faults: `cmd.Wait()`
on a nil pointer dereferences it. -/
def monitorRCloneProcess (cmd : Option Cmd) (now : Time) (s : Supervisor) :
    Option (Supervisor × List Event) :=
  match cmd with
  | none => none
  | some c =>
    let waited : List Event :=
      match c.waitErr with
      | some err => [.diag .error "[RemoteStorage] RClone process exited with error" (some err)]
      | none => [.diag .log "[RemoteStorage] RClone process exited" none]
    let restartCount : Int :=
      if now.Sub s.lastRestart < 10 * Second then s.restartCount + 1 else 1
    let s1 : Supervisor := { s with restartCount := restartCount, lastRestart := now }
    if restartCount ≤ 3 then
      some (s1, waited ++
        [.diag .log "[RemoteStorage] Restarting RClone process" none, .restartSignal])
    else
      some (s1, waited ++
        [.diag .majorError "[RemoteStorage] RClone process restarted too many times in a short period. Stopping automatic restarts." none])

/-- A run of the monitor over successive process exits: each exit is handled in the state the
previous one left. The result lists, per exit, the state after it and the events it
produced. -/
def runExits (s : Supervisor) : List (Cmd × Time) → List (Supervisor × List Event)
  | [] => []
  | (c, now) :: rest =>
    match monitorRCloneProcess (some c) now s with
    | none => []
    | some (s1, ev) => (s1, ev) :: runExits s1 rest

/-- Number of restarts signalled in the `window` before `now`, among earlier exits given with
their time and the events they produced. -/
def restartsWithin (window : Duration) (now : Time) (earlier : List (Time × List Event)) : Nat :=
  (earlier.filter fun p => signalsRestart p.2 && decide (now.Sub p.1 < window)).length


/-! ## The outside world -/

/-- A Go `interface{}` value as it occurs here: what `json.Unmarshal` puts in a
`map[string]interface{}`, and what the mount payload is built from. A map is the list of its
entries in the order the program meets them. -/
inductive Any where
  | null
  | bool (b : Bool)
  | int (n : Int)
  | float64 (text : String)
  | str (s : String)
  | slice (xs : List Any)
  | map (kvs : List (String × Any))

/-- An `http.Response`: the status code and what `ioutil.ReadAll(resp.Body)` returns. -/
structure Response where
  StatusCode : Int
  body : Except String String

/-- An `os.FileInfo`, as far as the program reads it. -/
structure FileInfo where
  ModTime : Time

/-- The operations the program calls outside this file, over a system state `σ`: the package
variables of `utils` it reads, the operating system, the HTTP client, `Unmount` (another file
of this package) and the encoders and decoders of the Go library. `jsonUnmarshal` reads a
JSON text into the value it writes down; `unmarshalErrorResp` and `unmarshalMap` are
`json.Unmarshal` into the error structure and into a `map[string]interface{}`. -/
structure Sys (σ : Type) where
  IsInsideContainer : Bool
  ProxyRCloneUser : String
  ProxyRClonePwd : String
  osStat : String → σ → Except StatError FileInfo × σ
  Unmount : String → Bool → σ → σ
  osMkdirAll : String → σ → Option String × σ
  ioutilReadDir : String → σ → Except String (List String) × σ
  utilsExec : String → List String → σ → (String × Option String) × σ
  clientDo : Request → σ → Except String Response × σ
  timeSleep : Duration → σ → σ
  osOpen : String → σ → Option String × σ
  md5Copy : String → σ → Except String String × σ
  processSignal : Nat → σ → Option String × σ
  processWait : Nat → σ → σ
  valuesEncode : List (String × String) → String
  jsonEncode : Any → String
  unmarshalErrorResp : String → Except String String
  jsonUnmarshal : String → Except String Any
  unmarshalMap : String → Except String (List (String × Any))

/-- The system state together with the trace of what the program has done so far. -/
structure World (σ : Type) where
  sys : σ
  trace : List Event

variable {σ : Type}

/-- Append one event to the trace. -/
def World.emit (w : World σ) (e : Event) : World σ :=
  { w with trace := w.trace ++ [e] }

/-- A diagnostic: `utils.Debug`, `utils.Log`, `utils.Error`, `utils.MajorError`. -/
def World.diag (w : World σ) (level : Level) (msg : String) (err : Option String) : World σ :=
  w.emit (.diag level msg err)

/-- `os.IsNotExist(err)` for the error of an `os.Stat`. -/
def IsNotExist (r : Except StatError FileInfo) : Bool :=
  match r with
  | .error e => e.notExist
  | .ok _ => false

/-- The error of an `os.Stat`, nil when it succeeded. -/
def statErr (r : Except StatError FileInfo) : Option StatError :=
  match r with
  | .error e => some e
  | .ok _ => none

/-- The call `os.Stat(path)`. -/
def osStat (S : Sys σ) (path : String) (w : World σ) : Except StatError FileInfo × World σ :=
  let r := S.osStat path w.sys
  (r.1, { sys := r.2, trace := w.trace ++ [.stat path (statErr r.1)] })

/-- The call `Unmount(path, force)`; its result is not looked at. -/
def Unmount (S : Sys σ) (path : String) (force : Bool) (w : World σ) : World σ :=
  { sys := S.Unmount path force w.sys, trace := w.trace ++ [.unmount path force] }

/-- The call `os.MkdirAll(path, 0755)`. -/
def osMkdirAll (S : Sys σ) (path : String) (w : World σ) : Option String × World σ :=
  let r := S.osMkdirAll path w.sys
  (r.1, { sys := r.2, trace := w.trace ++ [.mkdirAll path r.1] })

/-- The call `ioutil.ReadDir(path)`: the entries are nil when it fails. -/
def ioutilReadDir (S : Sys σ) (path : String) (w : World σ) :
    Except String (List String) × World σ :=
  let r := S.ioutilReadDir path w.sys
  match r.1 with
  | .error e => (.error e, { sys := r.2, trace := w.trace ++ [.readDir path [] (some e)] })
  | .ok files => (.ok files, { sys := r.2, trace := w.trace ++ [.readDir path files none] })

/-- The call `utils.Exec(name, args...)`. -/
def utilsExec (S : Sys σ) (name : String) (args : List String) (w : World σ) :
    (String × Option String) × World σ :=
  let r := S.utilsExec name args w.sys
  (r.1, { sys := r.2, trace := w.trace ++ [.exec name args r.1.1 r.1.2] })

/-- The call `client.Do(req)`. -/
def clientDo (S : Sys σ) (req : Request) (w : World σ) : Except String Response × World σ :=
  let r := S.clientDo req w.sys
  (r.1, { sys := r.2, trace := w.trace ++ [.httpDo req] })

/-- The call `time.Sleep(d)`. -/
def timeSleep (S : Sys σ) (d : Duration) (w : World σ) : World σ :=
  { sys := S.timeSleep d w.sys, trace := w.trace ++ [.sleep d] }

/-- The call `json.Marshal(v)`. On the values this file builds (maps with string keys holding
strings, integers, booleans and such maps) the Go encoder does not fail. -/
def jsonMarshal (S : Sys σ) (v : Any) : Except String String :=
  .ok (S.jsonEncode v)

/-- The requests sent in a trace, in order. -/
def requests (tr : List Event) : List Request :=
  tr.filterMap fun e =>
    match e with
    | .httpDo req => some req
    | _ => none

/-! ## Control client -/

/-- The `url.Values` that `runRDC` fills from key/value parameters: `data.Set(k, v)` for each
full pair, a later value for a key replacing the earlier one. -/
def formValues : List String → List (String × String) → List (String × String)
  | k :: v :: rest, data => formValues rest ((data.filter fun p => p.1 ≠ k) ++ [(k, v)])
  | _, data => data

/-- The request `runRDC` builds for a path and parameters. `http.NewRequest` does not fail on
the method POST and a URL made of the fixed base and a path. -/
def rdcRequest (S : Sys σ) (path : String) (params : List String) : Request :=
  let fullURL := "http://localhost:5572/cosmos/rclone" ++ path
  match params with
  | [p0, p1] =>
    if p0 = "json" then
      { method := "POST", url := fullURL, contentType := "application/json", body := p1,
        authUser := S.ProxyRCloneUser, authPass := S.ProxyRClonePwd }
    else
      { method := "POST", url := fullURL, contentType := "application/x-www-form-urlencoded",
        body := S.valuesEncode (formValues params []),
        authUser := S.ProxyRCloneUser, authPass := S.ProxyRClonePwd }
  | _ =>
    { method := "POST", url := fullURL, contentType := "application/x-www-form-urlencoded",
      body := S.valuesEncode (formValues params []),
      authUser := S.ProxyRCloneUser, authPass := S.ProxyRClonePwd }

/-- The control client: one request to the engine, the body of the answer or an error. -/
def runRDC (S : Sys σ) (path : String) (params : List String) (w : World σ) :
    Except String String × World σ :=
  let req := rdcRequest S path params
  let w := w.diag .debug
    ("[RemoteStorage] Sending request to RClone server: " ++ req.url) none
  let w := w.diag .debug ("[RemoteStorage] Request payload: " ++ req.body) none
  match clientDo S req w with
  | (.error err, w) => (.error ("error sending request: " ++ err), w)
  | (.ok resp, w) =>
    match resp.body with
    | .error err => (.error ("error reading response body: " ++ err), w)
    | .ok body =>
      if resp.StatusCode ≠ 200 then
        match S.unmarshalErrorResp body with
        | .ok errorResp =>
          if errorResp ≠ "" then (.error ("RClone server error: " ++ errorResp), w)
          else (.error ("unexpected status code: " ++ toString resp.StatusCode), w)
        | .error _ => (.error ("unexpected status code: " ++ toString resp.StatusCode), w)
      else
        (.ok body, w)

/-! ## Unmounting -/

/-- The loop of `unmountAll` over the mount points of the list. -/
def unmountLoop (S : Sys σ) : List String → World σ → World σ
  | [], w => w
  | mountPoint :: rest, w =>
    let w := w.diag .log ("[RemoteStorage] Unmounting " ++ mountPoint) none
    match jsonMarshal S (.map [("mountPoint", .str mountPoint)]) with
    | .error err =>
      unmountLoop S rest (w.diag .error
        ("[RemoteStorage] Error marshaling unmount payload for " ++ mountPoint) (some err))
    | .ok payloadBytes =>
      match runRDC S "/mount/unmount" ["json", payloadBytes] w with
      | (.error err, w) =>
        unmountLoop S rest (w.diag .error
          ("[RemoteStorage] Error unmounting " ++ mountPoint) (some err))
      | (.ok _, w) =>
        unmountLoop S rest (w.diag .log
          ("[RemoteStorage] Successfully unmounted " ++ mountPoint) none)

/-- The code of a character with the upper-case letters A to Z taken to lower case. -/
def foldCode (c : Char) : Nat :=
  if 65 ≤ c.toNat ∧ c.toNat ≤ 90 then c.toNat + 32 else c.toNat

/-- Whether `json.Unmarshal` takes an object key for a struct field of the given name: the
same text up to the case of letters. -/
def equalFold (key name : String) : Bool :=
  key.data.map foldCode == name.data.map foldCode

/-- The members of one element of the list, decoded into `struct { MountPoint string }` with
the field tagged `MountPoint`: a member of that name must be a string (or null, which
changes nothing), a later one replacing an earlier one; other members are skipped. -/
def decodeMountFields : List (String × Any) → String → Except String String
  | [], mountPoint => .ok mountPoint
  | (key, value) :: rest, mountPoint =>
    if equalFold key "MountPoint" then
      match value with
      | .str text => decodeMountFields rest text
      | .null => decodeMountFields rest mountPoint
      | _ => .error "json: cannot unmarshal value into Go struct field .mounts.MountPoint of type string"
    else decodeMountFields rest mountPoint

/-- One element of the list decoded into `struct { MountPoint string }`: an object, or null
for the zero struct. -/
def decodeMount : Any → Except String String
  | .map members => decodeMountFields members ""
  | .null => .ok ""
  | _ => .error "json: cannot unmarshal value into Go struct field .mounts of type struct"

/-- The elements of a JSON array decoded one by one. -/
def decodeMounts : List Any → Except String (List String)
  | [] => .ok []
  | value :: rest =>
    match decodeMount value with
    | .error err => .error err
    | .ok mountPoint =>
      match decodeMounts rest with
      | .error err => .error err
      | .ok mountPoints => .ok (mountPoint :: mountPoints)

/-- The members of the reply decoded into `mountList`, whose one field `Mounts` is tagged
`mounts`: a member of that name must be an array (or null, for the nil slice), a later one
replacing an earlier one; members of any other name are skipped. -/
def decodeMountListFields : List (String × Any) → List String → Except String (List String)
  | [], mounts => .ok mounts
  | (key, value) :: rest, mounts =>
    if equalFold key "mounts" then
      match value with
      | .slice elements =>
        match decodeMounts elements with
        | .error err => .error err
        | .ok mountPoints => decodeMountListFields rest mountPoints
      | .null => decodeMountListFields rest []
      | _ => .error "json: cannot unmarshal value into Go struct field .mounts of type []struct"
    else decodeMountListFields rest mounts

/-- A JSON value decoded into `mountList`: the mount points under `mounts`, in order. -/
def decodeMountList : Any → Except String (List String)
  | .map members => decodeMountListFields members []
  | .null => .ok []
  | _ => .error "json: cannot unmarshal value into Go value of type struct"

/-- The call `json.Unmarshal(response, &mountList)`: the mount points it leaves in
`mountList.Mounts`, or its error. -/
def unmarshalMountList (S : Sys σ) (response : String) : Except String (List String) :=
  match S.jsonUnmarshal response with
  | .error err => .error err
  | .ok value => decodeMountList value

/-- Unmount every mount the engine lists. -/
def unmountAll (S : Sys σ) (w : World σ) : Option String × World σ :=
  let w := w.diag .log "[RemoteStorage] Unmounting all remote storages" none
  match runRDC S "/mount/listmounts" [] w with
  | (.error err, w) => (some ("error getting mount list: " ++ err), w)
  | (.ok response, w) =>
    match unmarshalMountList S response with
    | .error err => (some ("error parsing mount list response: " ++ err), w)
    | .ok mounts => (none, unmountLoop S mounts w)

/-! ## Mounting -/

/-- One remote of the engine configuration: its name and its `cosmos-chown` value. -/
structure RemoteStorage where
  Name : String
  Chown : String
deriving DecidableEq, Repr

/-- The pieces of a character list between occurrences of the separator character: one more
piece than there are separators. -/
def splitChars (sep : Char) : List Char → List (List Char)
  | [] => [[]]
  | c :: cs =>
    if c = sep then [] :: splitChars sep cs
    else
      match splitChars sep cs with
      | [] => [[c]]
      | piece :: pieces => (c :: piece) :: pieces

/-- The call `strings.Split(s, sep)` for a separator of one character. -/
def stringsSplit (s : String) (sep : Char) : List String :=
  (splitChars sep s.data).map String.mk

/-- The largest Go `int` (64 bits). -/
def maxInt : Int := 9223372036854775807

/-- The smallest Go `int` (64 bits). -/
def minInt : Int := -9223372036854775808

/-- Whether the character is a decimal digit. -/
def isDigit (c : Char) : Bool :=
  decide (48 ≤ c.toNat) && decide (c.toNat ≤ 57)

/-- The number written by a list of decimal digits. -/
def digitsValue (cs : List Char) : Nat :=
  cs.foldl (fun acc c => acc * 10 + (c.toNat - 48)) 0

/-- The call `strconv.Atoi(s)`: the value and whether an error is returned. An optional sign
is followed by one or more decimal digits; on a syntax error the value is 0, out of the
range of `int` it is the nearest bound, each with an error. -/
def Atoi (s : String) : Int × Bool :=
  let signed : Bool × List Char :=
    match s.data with
    | '-' :: rest => (true, rest)
    | '+' :: rest => (false, rest)
    | cs => (false, cs)
  let digits := signed.2
  if digits.isEmpty || !digits.all isDigit then (0, true)
  else
    let n : Int := if signed.1 then -(digitsValue digits : Int) else (digitsValue digits : Int)
    if maxInt < n then (maxInt, true)
    else if n < minInt then (minInt, true)
    else (n, false)

/-- The directory a remote is mounted on. -/
def mountPointOf (S : Sys σ) (remoteStorage : RemoteStorage) : String :=
  (if S.IsInsideContainer then "/mnt/host/mnt/cosmos-storage-" else "/mnt/cosmos-storage-")
    ++ remoteStorage.Name

/-- The payload of the mount call, before encoding. `Umask` is the octal constant `077`. -/
def mountPayload (remotePath mountPoint : String) (uid gid : Int) : Any :=
  .map [
    ("fs", .str remotePath),
    ("mountPoint", .str mountPoint),
    ("mountType", .str "mount"),
    ("vfsOpt", .map [
      ("CacheMode", .str "full"),
      ("CacheMaxAge", .str "24h"),
      ("ReadChunkSize", .str "10M"),
      ("ReadChunkSizeLimit", .str "100M"),
      ("UID", .int uid),
      ("GID", .int gid),
      ("Umask", .int 63)]),
    ("mountOpt", .map [("AllowOther", .bool true)])]

/-- The user and group of the mount: 1000 and 1000 without a `chown` value, else the two
colon-separated parts of it, each through `strconv.Atoi` whose error is dropped. Any other
number of parts is an error. -/
def parseChown (chown : String) : Except String (Int × Int) :=
  if chown ≠ "" then
    match stringsSplit chown ':' with
    | [uids, gids] => .ok ((Atoi uids).1, (Atoi gids).1)
    | _ => .error ("[RemoteStorage] invalid chown value: " ++ chown)
  else .ok (1000, 1000)

/-- The tail of `mountRemoteStorage` (from `chown := remoteStorage.Chown` to the end), which
runs once the mount point was read and found empty: change the owner, work out the user and
group, and send the mount call. -/
def mountEmptyDir (S : Sys σ) (remoteStorage : RemoteStorage) (mountPoint : String)
    (w : World σ) : Option String × World σ :=
  let chown := remoteStorage.Chown
  let chowned : Option String × World σ :=
    if chown ≠ "" then
      let w := w.diag .log ("[STORAGE] Chowning " ++ mountPoint ++ " to " ++ chown) none
      let r := utilsExec S "chown" [chown, mountPoint] w
      (r.1.2, r.2.diag .debug r.1.1 none)
    else (none, w)
  match chowned with
  | (some err, w) => (some err, w)
  | (none, w) =>
    let remotePath := remoteStorage.Name ++ ":"
    match parseChown chown with
    | .error err => (some err, w)
    | .ok (uid, gid) =>
      match jsonMarshal S (mountPayload remotePath mountPoint uid gid) with
      | .error err => (some ("error marshaling payload: " ++ err), w)
      | .ok payloadBytes =>
        match runRDC S "/mount/mount" ["json", payloadBytes] w with
        | (.error err, w) =>
          (some ("[RemoteStorage] error mounting remote storage: " ++ err), w)
        | (.ok _, w) =>
          (none, w.diag .log ("[RemoteStorage] Successfully mounted "
            ++ remoteStorage.Name ++ " to " ++ mountPoint) none)

/-- The two `os.Stat` blocks at the head of `mountRemoteStorage`: unmount whatever is mounted
on the directory unless it does not exist, then create it when it does not exist. The result
is the error of `os.MkdirAll`, `none` when it was not called or succeeded. -/
def prepareMountPoint (S : Sys σ) (mountPoint : String) (w : World σ) :
    Option String × World σ :=
  let st1 := osStat S mountPoint w
  let w := if !IsNotExist st1.1 then Unmount S mountPoint true st1.2 else st1.2
  let st2 := osStat S mountPoint w
  if IsNotExist st2.1 then osMkdirAll S mountPoint st2.2 else (none, st2.2)

/-- Mount one remote on its directory. The result is the error returned, `none` for nil. The
head of the function is `prepareMountPoint`; then the directory is read and refused when it
holds an entry; the rest is `mountEmptyDir`. -/
def mountRemoteStorage (S : Sys σ) (remoteStorage : RemoteStorage) (w : World σ) :
    Option String × World σ :=
  let mountPoint := mountPointOf S remoteStorage
  match prepareMountPoint S mountPoint w with
  | (some err, w) =>
    (some ("[RemoteStorage] error creating mount point directory: " ++ err), w)
  | (none, w) =>
    match ioutilReadDir S mountPoint w with
    | (.error err, w) =>
      (some ("[RemoteStorage] error reading mount point directory: " ++ err), w)
    | (.ok files, w) =>
      if files.length > 0 then
        (some "[RemoteStorage] mount point directory is not empty", w)
      else
        mountEmptyDir S remoteStorage mountPoint w

/-- The `cosmos-chown` value of one entry of the configuration dump: the string under that
key when the entry is a map holding one, empty otherwise. -/
def chownOf (value : Any) : String :=
  match value with
  | .map storageConfig =>
    match storageConfig.lookup "cosmos-chown" with
    | some (.str chownStr) => chownStr
    | _ => ""
  | _ => ""

/-- The loop of `getStorageList` over the entries of the decoded dump, in the order the
program ranges over the map. -/
def storageLoop : List (String × Any) → List RemoteStorage → World σ →
    List RemoteStorage × World σ
  | [], storageList, w => (storageList, w)
  | (key, value) :: rest, storageList, w =>
    let w := w.diag .debug ("[RemoteStorage] Found storage: " ++ key) none
    if key ≠ "install_id" ∧ key ≠ "client_id" ∧ key ≠ "client_secret" then
      storageLoop rest (storageList ++ [{ Name := key, Chown := chownOf value }]) w
    else
      storageLoop rest storageList w

/-- The remotes of the engine configuration. -/
def getStorageList (S : Sys σ) (w : World σ) : Except String (List RemoteStorage) × World σ :=
  match runRDC S "/config/dump" [] w with
  | (.error err, w) => (.error ("error getting config dump: " ++ err), w)
  | (.ok response, w) =>
    match S.unmarshalMap response with
    | .error err => (.error ("error parsing config dump response: " ++ err), w)
    | .ok result =>
      let r := storageLoop result [] w
      (.ok r.1, r.2)

/-- The text `fmt.Sprintf("%s", remoteStorage)` gives for the struct. -/
def RemoteStorage.format (r : RemoteStorage) : String :=
  "\x7b" ++ r.Name ++ " " ++ r.Chown ++ "\x7d"

/-- The loop of `remountAll` over the remotes of the list. -/
def remountLoop (S : Sys σ) : List RemoteStorage → World σ → World σ
  | [], w => w
  | remoteStorage :: rest, w =>
    let w := w.diag .log ("[RemoteStorage] Mounting " ++ remoteStorage.format) none
    match mountRemoteStorage S remoteStorage w with
    | (some err, w) =>
      w.diag .majorError "[RemoteStorage] Error mounting remote storage" (some err)
    | (none, w) => remountLoop S rest w

/-- Mount every remote of the engine configuration. -/
def remountAll (S : Sys σ) (w : World σ) : World σ :=
  match getStorageList S w with
  | (.error err, w) =>
    w.diag .majorError "[RemoteStorage] Error getting remote storage list for mounting"
      (some err)
  | (.ok storageList, w) => remountLoop S storageList w

/-! ## Stop, restart and the readiness wait -/

/-- Stop the engine process: unmount everything, send SIGTERM, wait for the exit. -/
def stopRCloneProcess (S : Sys σ) (g : Supervisor) (w : World σ) : Supervisor × World σ :=
  if g.isWaitingToStop then (g, w)
  else
    let g1 : Supervisor := { g with isWaitingToStop := true }
    let w1 : World σ :=
      match g1.rcloneCmd with
      | some cmd =>
        match cmd.Process with
        | some pid =>
          let w := w.diag .log "[RemoteStorage] Stopping RClone process" none
          let w := (unmountAll S w).2
          let sig := S.processSignal pid w.sys
          let w : World σ := { sys := sig.2, trace := w.trace ++ [.signal pid sig.1] }
          let w :=
            match sig.1 with
            | some err => w.diag .error "[RemoteStorage] Error stopping RClone process" (some err)
            | none => w
          { sys := S.processWait pid w.sys, trace := w.trace ++ [.wait pid] }
        | none => w
      | none => w
    ({ g1 with isWaitingToStop := false }, w1)

/-- The loop that waits for the engine to answer: `some true` when it left the loop by
`break`, `some false` when it gave up and returned, `none` when the fuel ran out first. -/
def waitLoop (S : Sys σ) : Nat → Int → World σ → Option (Bool × World σ)
  | 0, _, _ => none
  | fuel + 1, retries, w =>
    match runRDC S "/core/version" [] w with
    | (.ok _, w) => some (true, w)
    | (.error _, w) =>
      let w := timeSleep S (2 * Second) w
      if retries > 5 then
        some (false, w.diag .majorError
          "[RemoteStorage] Failed to reach RClone, check the port 5572 is free" none)
      else waitLoop S fuel (retries + 1) w

/-- The body of the goroutine that `restart` launches, the same text as the one at the end of
`InitRemoteStorage`: wait for the engine, then remount. -/
def waitForRClone (S : Sys σ) (fuel : Nat) (w : World σ) : Option (World σ) :=
  match waitLoop S fuel 0 w with
  | none => none
  | some (false, w) => some w
  | some (true, w) =>
    some (remountAll S (w.diag .log "[RemoteStorage] RClone started and ready!" none))

/-- The restart routine, with the goroutine it launches run to its end. -/
def restart (S : Sys σ) (fuel : Nat) (g : Supervisor) (w : World σ) :
    Option (Supervisor × World σ) :=
  let stopped := stopRCloneProcess S g w
  (waitForRClone S fuel stopped.2).map fun w => (stopped.1, w)

/-! ## Configuration fingerprint -/

/-- The MD5 of the file as hexadecimal text, empty when the file cannot be read. -/
def getFileHash (S : Sys σ) (filePath : String) (w : World σ) : String × World σ :=
  let opened := S.osOpen filePath w.sys
  let w : World σ := { sys := opened.2, trace := w.trace ++ [.fileOpen filePath opened.1] }
  match opened.1 with
  | some err =>
    ("", w.diag .error "[RemoteStorage] Error opening file for hashing" (some err))
  | none =>
    let copied := S.md5Copy filePath w.sys
    match copied.1 with
    | .error err =>
      let w : World σ :=
        { sys := copied.2, trace := w.trace ++ [.fileHash filePath "" (some err)] }
      ("", w.diag .error "[RemoteStorage] Error calculating file hash" (some err))
    | .ok sum => (sum, { sys := copied.2, trace := w.trace ++ [.fileHash filePath sum none] })

/-- The modification time of the file, the zero time when it cannot be read. -/
def getFileModTime (S : Sys σ) (filePath : String) (w : World σ) : Time × World σ :=
  match osStat S filePath w with
  | (.error err, w) =>
    (Time.zero, w.diag .error "[RemoteStorage] Error getting file info" (some err.msg))
  | (.ok info, w) => (info.ModTime, w)

/-- The fingerprint check. The two pointers are the stored hash and modification time before
the call; next to the result stand their values after it. -/
def fileChanged (S : Sys σ) (filePath : String) (lastHash : String) (lastModTime : Time)
    (w : World σ) : (Bool × String × Time) × World σ :=
  let h := getFileHash S filePath w
  let m := getFileModTime S filePath h.2
  let currentHash := h.1
  let currentModTime := m.1
  if currentHash ≠ lastHash ∨ !currentModTime.Equal lastModTime then
    ((true, currentHash, currentModTime), m.2)
  else
    ((false, lastHash, lastModTime), m.2)

/-! ## Starting the engine -/

/-- The operations of `os/exec` behind `RunRCloneCommand`, with the package variable
`utils.CONFIGFOLDER` and the program path `os.Args[0]`. A pipe call returns its error; a
successful `cmd.Start()` returns the process started and the error `cmd.Wait()` will return
once that process has exited. -/
structure ExecSys (σ : Type) where
  CONFIGFOLDER : String
  osArgs0 : String
  stdinPipe : σ → Option String × σ
  stdoutPipe : σ → Option String × σ
  stderrPipe : σ → Option String × σ
  cmdStart : String → List String → σ → Except String (Nat × Option String) × σ

/-- Start the program itself as `rclone` with the command given. The result is the process
handle, `none` for the nil pointer returned when a pipe or the start fails. The two
goroutines that copy the output of a started process to the log are left out. -/
def RunRCloneCommand (X : ExecSys σ) (command : List String) (w : World σ) :
    Option Cmd × World σ :=
  let w := w.diag .log "[RemoteStorage] Running Rclone process" none
  let args := ["rclone"] ++ command
  let si := X.stdinPipe w.sys
  let w : World σ := { sys := si.2, trace := w.trace ++ [.pipe "stdin" si.1] }
  match si.1 with
  | some err => (none, w.diag .error "[RemoteStorage] Error creating stdin pipe" (some err))
  | none =>
    let so := X.stdoutPipe w.sys
    let w : World σ := { sys := so.2, trace := w.trace ++ [.pipe "stdout" so.1] }
    match so.1 with
    | some err => (none, w.diag .error "[RemoteStorage] Error creating stdout pipe" (some err))
    | none =>
      let se := X.stderrPipe w.sys
      let w : World σ := { sys := se.2, trace := w.trace ++ [.pipe "stderr" se.1] }
      match se.1 with
      | some err =>
        (none, w.diag .error "[RemoteStorage] Error creating stderr pipe" (some err))
      | none =>
        let st := X.cmdStart X.osArgs0 args w.sys
        match st.1 with
        | .error err =>
          let w : World σ :=
            { sys := st.2, trace := w.trace ++ [.spawn X.osArgs0 args (some err)] }
          (none, w.diag .error "[RemoteStorage] Error starting rclone command" (some err))
        | .ok started =>
          let w : World σ := { sys := st.2, trace := w.trace ++ [.spawn X.osArgs0 args none] }
          (some { Process := some started.1, waitErr := started.2 }, w)

/-- Start the engine and launch its exit monitor, with the monitor run to its end: `now` is
what `time.Now()` returns in the monitor. The handle returned by `RunRCloneCommand` is stored
in `rcloneCmd` and handed to the monitor as it is. The result is `none` when the monitor
faults. -/
def startRCloneProcess (S : Sys σ) (X : ExecSys σ) (now : Time) (g : Supervisor)
    (w : World σ) : Option (Supervisor × World σ) :=
  let configLocation := X.CONFIGFOLDER ++ "rclone.conf"
  let run := RunRCloneCommand X
    ["rcd", "--rc-user=" ++ S.ProxyRCloneUser, "--rc-pass=" ++ S.ProxyRClonePwd,
      "--config=" ++ configLocation, "--rc-baseurl=/cosmos/rclone"] w
  let g1 : Supervisor := { g with rcloneCmd := run.1 }
  match monitorRCloneProcess g1.rcloneCmd now g1 with
  | none => none
  | some (g2, ev) => some (g2, { sys := run.2.sys, trace := run.2.trace ++ ev })

/-! ## Vocabulary of the statements -/

/-- The counter value the monitor computes for an exit at `now`. -/
def nextCount (now : Time) (s : Supervisor) : Int :=
  if now.Sub s.lastRestart < 10 * Second then s.restartCount + 1 else 1

/-- Each time of the list is less than 10 seconds after the one before it, the first one after
`last`. -/
def chained : Time → List Time → Bool
  | _, [] => true
  | last, t :: rest => decide (t.Sub last < 10 * Second) && chained t rest

/-- Number of restarts signalled in the 10 seconds before exit number `k` (from 0) of a run,
among the exits before it. -/
def restartsBefore (s : Supervisor) (exits : List (Cmd × Time)) (k : Nat) : Nat :=
  match exits[k]? with
  | none => 0
  | some (_, now) =>
    restartsWithin (10 * Second) now
      (((exits.take k).map Prod.snd).zip ((runExits s (exits.take k)).map Prod.snd))

/-- Whether exit number `k` (from 0) of a run signals a restart. -/
def restartAt (s : Supervisor) (exits : List (Cmd × Time)) (k : Nat) : Bool :=
  match (runExits s exits)[k]? with
  | none => false
  | some (_, ev) => signalsRestart ev

/-- The events appended to the trace between two worlds. -/
def eventsSince (w w1 : World σ) : List Event :=
  w1.trace.drop w.trace.length

/-- The three events of one call of `runRDC`. -/
def rdcEvents (S : Sys σ) (path : String) (params : List String) : List Event :=
  [.diag .debug
      ("[RemoteStorage] Sending request to RClone server: " ++ (rdcRequest S path params).url)
      none,
    .diag .debug ("[RemoteStorage] Request payload: " ++ (rdcRequest S path params).body) none,
    .httpDo (rdcRequest S path params)]

/-- Whether the event is a directory listing. -/
def Event.isReadDir : Event → Bool
  | .readDir _ _ _ => true
  | _ => false

/-- The request by which `unmountAll` unmounts one mount point. -/
def unmountRequest (S : Sys σ) (mountPoint : String) : Request :=
  rdcRequest S "/mount/unmount" ["json", S.jsonEncode (.map [("mountPoint", .str mountPoint)])]

/-- The mount call for a remote with the given user and group. -/
def mountRequest (S : Sys σ) (remoteStorage : RemoteStorage) (uid gid : Int) : Request :=
  rdcRequest S "/mount/mount" ["json", S.jsonEncode
    (mountPayload (remoteStorage.Name ++ ":") (mountPointOf S remoteStorage) uid gid)]

/-- The mount call for a remote with the user and group its `chown` value gives, `none` when
that value is refused. -/
def mountRequestOf (S : Sys σ) (remoteStorage : RemoteStorage) : Option Request :=
  match parseChown remoteStorage.Chown with
  | .ok (uid, gid) => some (mountRequest S remoteStorage uid gid)
  | .error _ => none

/-- The remotes of the list mounted one after the other, each announced in the log as
`remountAll` does: the world after the last mount when every mount returned nil, `none` as
soon as one returns an error. -/
def mountedAll (S : Sys σ) : List RemoteStorage → World σ → Option (World σ)
  | [], w => some w
  | remoteStorage :: rest, w =>
    match mountRemoteStorage S remoteStorage
      (w.diag .log ("[RemoteStorage] Mounting " ++ remoteStorage.format) none) with
    | (some _, _) => none
    | (none, w1) => mountedAll S rest w1

/-- Whether a call of the control client returned an error. -/
def failed (r : Except String String × World σ) : Bool :=
  match r.1 with
  | .error _ => true
  | .ok _ => false

/-- The world after `k` probes of the version endpoint, each followed by the 2 second
sleep. -/
def afterProbes (S : Sys σ) : Nat → World σ → World σ
  | 0, w => w
  | k + 1, w => afterProbes S k (timeSleep S (2 * Second) (runRDC S "/core/version" [] w).2)

/-- The probe made after `k` earlier probes (so probe number `k + 1`). -/
def probe (S : Sys σ) (k : Nat) (w : World σ) : Except String String × World σ :=
  runRDC S "/core/version" [] (afterProbes S k w)

/-! ## The supervision loop -/

/-- The first statements of `startRCloneProcess`, before the monitor is launched: run the
engine and store the handle in `rcloneCmd`. -/
def launchEngine (S : Sys σ) (X : ExecSys σ) (g : Supervisor) (w : World σ) :
    Supervisor × World σ :=
  let configLocation := X.CONFIGFOLDER ++ "rclone.conf"
  let run := RunRCloneCommand X
    ["rcd", "--rc-user=" ++ S.ProxyRCloneUser, "--rc-pass=" ++ S.ProxyRClonePwd,
      "--config=" ++ configLocation, "--rc-baseurl=/cosmos/rclone"] w
  ({ g with rcloneCmd := run.1 }, run.2)

/-- The engine as `InitRemoteStorage` supervises it (rclone.go:606-620): `startRCloneProcess`
once, then again each time something is received on `rcloneRestart`. Monitors are launched
nowhere else, so an exit is handled only for a process started here. The list gives the
times at which the successive engine processes exit, as far as the run is followed: the
first process exits at the first time, the process started on the restart it signals at the
second, and so on; a time is used only when a process has been started to exit at it. With
the list used up the last engine started keeps running. The result is `none` when a monitor
faults. -/
def superviseEngine (S : Sys σ) (X : ExecSys σ) :
    List Time → Supervisor → World σ → Option (Supervisor × World σ)
  | [], g, w =>
    match (launchEngine S X g w).1.rcloneCmd with
    | none => none
    | some _ => some (launchEngine S X g w)
  | now :: later, g, w =>
    match startRCloneProcess S X now g w with
    | none => none
    | some (g1, w1) =>
      if signalsRestart (eventsSince w w1) then superviseEngine S X later g1 w1
      else some (g1, w1)

/-- Number of sends on `rcloneRestart` in a trace. -/
def restartSignals (tr : List Event) : Nat :=
  (tr.filter Event.isRestartSignal).length

/-! ## Example systems and inputs -/

mutual
/-- A plain JSON writer for the example systems: fields in the order of the list, strings
between quotes as they are. -/
def renderJSON : Any → String
  | .null => "null"
  | .bool b => if b then "true" else "false"
  | .int n => toString n
  | .float64 text => text
  | .str s => "\"" ++ s ++ "\""
  | .slice xs => "[" ++ renderItems xs ++ "]"
  | .map kvs => "\x7b" ++ renderFields kvs ++ "\x7d"
/-- The items of a JSON array, separated by commas. -/
def renderItems : List Any → String
  | [] => ""
  | x :: xs => renderJSON x ++ (if xs.isEmpty then "" else ",") ++ renderItems xs
/-- The fields of a JSON object, separated by commas. -/
def renderFields : List (String × Any) → String
  | [] => ""
  | (k, v) :: kvs =>
    "\"" ++ k ++ "\":" ++ renderJSON v ++ (if kvs.isEmpty then "" else ",")
      ++ renderFields kvs
end

/-- A system in which every call succeeds and nothing changes: paths exist, directories are
empty, commands succeed, the engine answers 200 with an empty object, and bodies decode to
empty values. -/
def calmSys (σ : Type) : Sys σ where
  IsInsideContainer := false
  ProxyRCloneUser := "user"
  ProxyRClonePwd := "secret"
  osStat := fun _ s => (.ok { ModTime := ⟨63000000000000000000⟩ }, s)
  Unmount := fun _ _ s => s
  osMkdirAll := fun _ s => (none, s)
  ioutilReadDir := fun _ s => (.ok [], s)
  utilsExec := fun _ _ s => (("", none), s)
  clientDo := fun _ s => (.ok { StatusCode := 200, body := .ok "\x7b\x7d" }, s)
  timeSleep := fun _ s => s
  osOpen := fun _ s => (none, s)
  md5Copy := fun _ s => (.ok "d41d8cd98f00b204e9800998ecf8427e", s)
  processSignal := fun _ s => (none, s)
  processWait := fun _ s => s
  valuesEncode := fun _ => ""
  jsonEncode := renderJSON
  unmarshalErrorResp := fun _ => .ok ""
  jsonUnmarshal := fun _ => .ok (.map [])
  unmarshalMap := fun _ => .ok []

/-- The calm system, but every mount directory holds one entry. -/
def crowdedSys : Sys Unit :=
  { calmSys Unit with ioutilReadDir := fun _ s => (.ok ["lost+found"], s) }

/-- The calm system, but the engine never answers. -/
def deafSys : Sys Unit :=
  { calmSys Unit with clientDo := fun _ s => (.error "connection refused", s) }

/-- The calm system over a counter of requests, in which the engine refuses the first two
requests and answers from the third on. -/
def slowStartSys : Sys Nat :=
  { calmSys Nat with
    clientDo := fun _ n =>
      if n < 2 then (.error "connection refused", n + 1)
      else (.ok { StatusCode := 200, body := .ok "\x7b\x7d" }, n + 1) }

/-- The calm system whose listing decodes to three mounts under the key `mounts`, and in which
unmounting the second one fails. -/
def threeMountsSys : Sys Unit :=
  { calmSys Unit with
    jsonUnmarshal := fun _ => .ok (.map [("mounts", .slice [
      .map [("MountPoint", .str "/mnt/a")],
      .map [("MountPoint", .str "/mnt/b")],
      .map [("MountPoint", .str "/mnt/c")]])])
    clientDo := fun req s =>
      if req.body = renderJSON (.map [("mountPoint", .str "/mnt/b")]) then
        (.error "context deadline exceeded", s)
      else (.ok { StatusCode := 200, body := .ok "\x7b\x7d" }, s) }

/-- The calm system with three remotes in its configuration, the second one with a `chown`
value of three parts. -/
def threeRemotesSys : Sys Unit :=
  { calmSys Unit with
    unmarshalMap := fun _ => .ok [
      ("backup", .map [("type", .str "s3")]),
      ("photos", .map [("type", .str "sftp"), ("cosmos-chown", .str "1:2:3")]),
      ("music", .map [("type", .str "drive")])] }

/-- A world over the one-state systems, with nothing done yet. -/
def start : World Unit :=
  { sys := (), trace := [] }

/-- A world of `slowStartSys` with no request made and nothing done yet. -/
def startCounting : World Nat :=
  { sys := 0, trace := [] }

/-- An engine process that exited with a failure status. -/
def crashed : Cmd :=
  { Process := some 4242, waitErr := some "exit status 1" }

/-- The instant `k` seconds after a reference instant in the year 1997. -/
def secondsIn (k : Int) : Time :=
  ⟨63000000000000000000 + k * Second⟩

/-- Four exits, each 9 seconds after the one before. -/
def slowCrashes : List (Cmd × Time) :=
  [(crashed, secondsIn 0), (crashed, secondsIn 9), (crashed, secondsIn 18),
    (crashed, secondsIn 27)]

/-- Four exits, each 1 second after the one before. -/
def fastCrashes : List (Cmd × Time) :=
  [(crashed, secondsIn 0), (crashed, secondsIn 1), (crashed, secondsIn 2),
    (crashed, secondsIn 3)]

/-- Whether the key of the configuration dump is one of the three that `getStorageList`
leaves out. -/
def isReservedKey (key : String) : Bool :=
  decide (key = "install_id") || decide (key = "client_id") || decide (key = "client_secret")

/-- A configuration dump with the three reserved keys and four remotes: one without a
`cosmos-chown` field, one with a string in it, one with a number in it, and one whose
configuration is not a map. -/
def mixedDump : List (String × Any) :=
  [("install_id", .str "6f1c"),
    ("backup", .map [("type", .str "s3")]),
    ("client_id", .str "cosmos"),
    ("photos", .map [("type", .str "sftp"), ("cosmos-chown", .str "1001:1001")]),
    ("odd", .map [("cosmos-chown", .float64 "1000")]),
    ("client_secret", .str "hidden"),
    ("flat", .str "text")]

/-- The calm system whose configuration dump decodes to `mixedDump`. -/
def mixedDumpSys : Sys Unit :=
  { calmSys Unit with unmarshalMap := fun _ => .ok mixedDump }

/-- The calm system, but the engine answers every request with status 204 and an empty
body. -/
def noContentSys : Sys Unit :=
  { calmSys Unit with clientDo := fun _ s => (.ok { StatusCode := 204, body := .ok "" }, s) }

/-- The calm system, but the engine answers every request with status 500 and a body that
decodes to the error text "remote not found". -/
def serverErrorSys : Sys Unit :=
  { calmSys Unit with
    clientDo := fun _ s => (.ok { StatusCode := 500, body := .ok "remote not found" }, s)
    unmarshalErrorResp := fun body => .ok body }

/-- Process operations in which the pipes are created and `cmd.Start()` fails. -/
def noSpawnExec : ExecSys Unit where
  CONFIGFOLDER := "/config/"
  osArgs0 := "/cosmos"
  stdinPipe := fun s => (none, s)
  stdoutPipe := fun s => (none, s)
  stderrPipe := fun s => (none, s)
  cmdStart := fun _ _ s => (.error "fork/exec /cosmos: permission denied", s)

/-- Process operations in which the engine starts as process 4242 and later exits with a
failure status. -/
def spawnExec : ExecSys Unit :=
  { noSpawnExec with cmdStart := fun _ _ s => (.ok (4242, some "exit status 1"), s) }

/-- One mount as the engine lists it. -/
def listedMount : Any :=
  .map [("Fs", .str "backup:"), ("MountPoint", .str "/mnt/cosmos-storage-backup"),
    ("MountedOn", .str "2026-11-01T10:00:00Z")]

/-- The reply of the engine to `mount/listmounts` with one active mount: rclone puts the list
under the key `mountPoints`. -/
def engineListReply : Any :=
  .map [("mountPoints", .slice [listedMount])]

/-- The same list under the key `mounts`, the key `unmountAll` decodes. -/
def mountsKeyReply : Any :=
  .map [("mounts", .slice [listedMount])]

/-- The calm system in which the engine answers `mount/listmounts` with the text of the given
reply, and that text is read back into the reply. -/
def replySys (reply : Any) : Sys Unit :=
  { calmSys Unit with
    clientDo := fun req s =>
      if req.url = "http://localhost:5572/cosmos/rclone/mount/listmounts" then
        (.ok { StatusCode := 200, body := .ok (renderJSON reply) }, s)
      else (.ok { StatusCode := 200, body := .ok "\x7b\x7d" }, s)
    jsonUnmarshal := fun text =>
      if text = renderJSON reply then .ok reply else .error "unexpected end of JSON input" }

/-- The calm system with two remotes in its configuration, the second one with the ownership
hint "1001:1001". -/
def twoRemotesSys : Sys Unit :=
  { calmSys Unit with
    unmarshalMap := fun _ => .ok [
      ("backup", .map []),
      ("photos", .map [("cosmos-chown", .str "1001:1001")])] }

/-- The exit times of `fastCrashes`: four exits 1 second apart. -/
def fastExits : List Time :=
  [secondsIn 0, secondsIn 1, secondsIn 2, secondsIn 3]

/-! # Theorems -/

set_option maxRecDepth 1000000

/-! ## The restart circuit -/

/-- Saturation does not change how `t.Sub u` compares with a bound inside the range of
`time.Duration`. -/
theorem Time.Sub_lt_iff (t u : Time) (d : Int) (h1 : -9223372036854775808 < d)
    (h2 : d ≤ 9223372036854775807) : t.Sub u < d ↔ t.ns - u.ns < d := by
  unfold Time.Sub minDuration maxDuration
  show (if t.ns - u.ns < (-9223372036854775808 : Int) then (-9223372036854775808 : Int)
    else if (9223372036854775807 : Int) < t.ns - u.ns then (9223372036854775807 : Int)
    else t.ns - u.ns) < d ↔ _
  split_ifs with a b
  · constructor <;> intro _ <;> omega
  · constructor <;> intro _ <;> omega
  · rfl

/-- The test of the monitor, `now.Sub(lastRestart) < 10*time.Second`, compares the true
difference of the two instants with 10 seconds. -/
theorem Time.Sub_lt_ten (t u : Time) :
    t.Sub u < 10 * Second ↔ t.ns - u.ns < 10 * Second := by
  exact Time.Sub_lt_iff t u (10 * Second) (by decide) (by decide)

/-- The monitor on a process that is not nil: the new state, and what the events say. -/
theorem monitor_spec (c : Cmd) (now : Time) (s : Supervisor) :
    ∃ ev, monitorRCloneProcess (some c) now s =
        some ({ s with restartCount := nextCount now s, lastRestart := now }, ev) ∧
      signalsRestart ev = decide (nextCount now s ≤ 3) ∧
      fatalCount ev = if nextCount now s ≤ 3 then 0 else 1 := by
  unfold monitorRCloneProcess nextCount
  simp only
  by_cases h : (if now.Sub s.lastRestart < 10 * Second then s.restartCount + 1 else 1) ≤ 3
  · rw [if_pos h]
    refine ⟨_, rfl, ?_, ?_⟩
    · cases c.waitErr <;> simp [signalsRestart, Event.isRestartSignal, h]
    · cases c.waitErr <;> simp [fatalCount, Event.isMajorError, h]
  · rw [if_neg h]
    refine ⟨_, rfl, ?_, ?_⟩
    · cases c.waitErr <;> simp [signalsRestart, Event.isRestartSignal, h]
    · cases c.waitErr <;> simp [fatalCount, Event.isMajorError, h]

/-- Less than 10 seconds after the last restart the counter goes up by one. -/
theorem nextCount_of_lt (now : Time) (s : Supervisor) (h : now.Sub s.lastRestart < 10 * Second) :
    nextCount now s = s.restartCount + 1 := by
  simp [nextCount, h]

/-- 10 seconds or more after the last restart the counter starts again at 1. -/
theorem nextCount_of_not_lt (now : Time) (s : Supervisor)
    (h : ¬ now.Sub s.lastRestart < 10 * Second) : nextCount now s = 1 := by
  simp [nextCount, h]

/-- One step of a run of exits. -/
theorem runExits_cons (c : Cmd) (now : Time) (rest : List (Cmd × Time)) (s : Supervisor) :
    ∃ ev, runExits s ((c, now) :: rest) =
        ({ s with restartCount := nextCount now s, lastRestart := now }, ev) ::
          runExits { s with restartCount := nextCount now s, lastRestart := now } rest ∧
      signalsRestart ev = decide (nextCount now s ≤ 3) ∧
      fatalCount ev = if nextCount now s ≤ 3 then 0 else 1 := by
  obtain ⟨ev, h, h1, h2⟩ := monitor_spec c now s
  exact ⟨ev, by simp [runExits, h], h1, h2⟩

/-- In a run of exits each less than 10 seconds after the one before, exit number `k` leaves
the counter `k + 1` above its value before the run. -/
theorem runExits_chain (exits : List (Cmd × Time)) : ∀ (s : Supervisor),
    chained s.lastRestart (exits.map Prod.snd) = true →
    ∀ k, k < exits.length → ∃ s1 ev, (runExits s exits)[k]? = some (s1, ev) ∧
      s1.restartCount = s.restartCount + k + 1 ∧
      signalsRestart ev = decide (s1.restartCount ≤ 3) ∧
      fatalCount ev = if s1.restartCount ≤ 3 then 0 else 1 := by
  induction exits with
  | nil => intro s _ k hk; simp at hk
  | cons e rest ih =>
    obtain ⟨c, now⟩ := e
    intro s hch k hk
    have hch2 : now.Sub s.lastRestart < 10 * Second ∧ chained now (rest.map Prod.snd) = true := by
      simpa [chained] using hch
    obtain ⟨ev, hrun, hsig, hfat⟩ := runExits_cons c now rest s
    have hcnt : nextCount now s = s.restartCount + 1 := by simp [nextCount, hch2.1]
    rw [hrun]
    cases k with
    | zero =>
      refine ⟨{ s with restartCount := nextCount now s, lastRestart := now }, ev, by simp,
        ?_, ?_, ?_⟩
      · simp [hcnt]
      · simpa using hsig
      · simpa using hfat
    | succ j =>
      have hj : j < rest.length := by simpa using hk
      obtain ⟨s1, ev1, hget, hc1, hs1, hf1⟩ :=
        ih { s with restartCount := nextCount now s, lastRestart := now } hch2.2 j hj
      refine ⟨s1, ev1, by simpa using hget, ?_, hs1, hf1⟩
      rw [hc1, hcnt]; push_cast; ring

/-- The same from the first exit of the run, whatever its distance to the last restart. -/
theorem runExits_chain_from (c : Cmd) (t1 : Time) (rest : List (Cmd × Time)) (s : Supervisor)
    (hch : chained t1 (rest.map Prod.snd) = true) (k : Nat) (hk : k < rest.length + 1) :
    ∃ s1 ev, (runExits s ((c, t1) :: rest))[k]? = some (s1, ev) ∧
      s1.restartCount = nextCount t1 s + k ∧
      signalsRestart ev = decide (s1.restartCount ≤ 3) ∧
      fatalCount ev = if s1.restartCount ≤ 3 then 0 else 1 := by
  obtain ⟨ev, hrun, hsig, hfat⟩ := runExits_cons c t1 rest s
  rw [hrun]
  cases k with
  | zero =>
    refine ⟨{ s with restartCount := nextCount t1 s, lastRestart := t1 }, ev, by simp,
      by simp, ?_, ?_⟩
    · simpa using hsig
    · simpa using hfat
  | succ j =>
    have hj : j < rest.length := by omega
    obtain ⟨s1, ev1, hget, hc1, hs1, hf1⟩ :=
      runExits_chain rest { s with restartCount := nextCount t1 s, lastRestart := t1 } hch j hj
    refine ⟨s1, ev1, by simpa using hget, ?_, hs1, hf1⟩
    rw [hc1]; push_cast; ring

/-- A run handles every exit of the list. -/
theorem runExits_length (exits : List (Cmd × Time)) :
    ∀ s : Supervisor, (runExits s exits).length = exits.length := by
  induction exits with
  | nil => intro s; rfl
  | cons e rest ih =>
    obtain ⟨c, now⟩ := e
    intro s
    obtain ⟨ev, hrun, -, -⟩ := runExits_cons c now rest s
    rw [hrun]; simp [ih]

/-- C1, counterexample: four exits 9 seconds apart, starting from the initial state. Only one
restart was signalled in the 10 seconds before the fourth exit, fewer than 3, and yet the
fourth exit signals no restart. -/
theorem trailing_window_not_counted :
    restartsBefore Supervisor.init slowCrashes 3 < 3 ∧
      restartAt Supervisor.init slowCrashes 3 = false := by
  decide

/-- C1, amended: in every run of exits each less than 10 seconds after the one before it,
started with a counter that is not negative, every exit from the fourth on signals no
restart and emits exactly one fatal diagnostic; and when the first exit of the run came 10
seconds or more after the last restart, each of the first three exits signals a restart and
emits no fatal diagnostic. The count follows the gaps between consecutive exits, not a
trailing window of 10 seconds. -/
theorem restart_circuit_follows_gaps (s : Supervisor) (c : Cmd) (t1 : Time)
    (rest : List (Cmd × Time)) (h0 : 0 ≤ s.restartCount)
    (hch : chained t1 (rest.map Prod.snd) = true) (k : Nat) (hk : k < rest.length + 1) :
    ∃ s1 ev, (runExits s ((c, t1) :: rest))[k]? = some (s1, ev) ∧
      (3 ≤ k → signalsRestart ev = false ∧ fatalCount ev = 1) ∧
      (k < 3 → ¬ t1.Sub s.lastRestart < 10 * Second →
        signalsRestart ev = true ∧ fatalCount ev = 0) := by
  obtain ⟨s1, ev, hget, hc, hs, hf⟩ := runExits_chain_from c t1 rest s hch k hk
  refine ⟨s1, ev, hget, ?_, ?_⟩
  · intro h3
    have hn : 1 ≤ nextCount t1 s := by
      unfold nextCount; split_ifs <;> omega
    have : ¬ s1.restartCount ≤ 3 := by omega
    simp [hs, hf, this]
  · intro h3 hfresh
    have hn : nextCount t1 s = 1 := by simp [nextCount, hfresh]
    have : s1.restartCount ≤ 3 := by omega
    simp [hs, hf, this]

/-- C1, witness: four exits 1 second apart from the initial state; the third signals a
restart, the fourth signals none and emits one fatal diagnostic. -/
theorem restart_circuit_follows_gaps_witness :
    (∃ s1 ev, (runExits Supervisor.init fastCrashes)[2]? = some (s1, ev) ∧
      signalsRestart ev = true ∧ fatalCount ev = 0) ∧
    (∃ s1 ev, (runExits Supervisor.init fastCrashes)[3]? = some (s1, ev) ∧
      signalsRestart ev = false ∧ fatalCount ev = 1) := by
  constructor
  · obtain ⟨s1, ev, h, -, h2⟩ := restart_circuit_follows_gaps Supervisor.init crashed
      (secondsIn 0) [(crashed, secondsIn 1), (crashed, secondsIn 2), (crashed, secondsIn 3)]
      (by decide) (by decide) 2 (by decide)
    exact ⟨s1, ev, h, h2 (by decide) (by decide)⟩
  · obtain ⟨s1, ev, h, h3, -⟩ := restart_circuit_follows_gaps Supervisor.init crashed
      (secondsIn 0) [(crashed, secondsIn 1), (crashed, secondsIn 2), (crashed, secondsIn 3)]
      (by decide) (by decide) 3 (by decide)
    exact ⟨s1, ev, h, h3 (by decide)⟩

/-- C2: for every prior state and every exit time, the monitor (on a process that is not
nil) returns, sets `restartCount` to the old value plus one when `now - lastRestart` is
less than 10 seconds and to 1 otherwise, and sets `lastRestart` to `now`. -/
theorem monitor_updates_window (c : Cmd) (now : Time) (s : Supervisor) :
    ∃ s1 ev, monitorRCloneProcess (some c) now s = some (s1, ev) ∧
      s1.restartCount =
        (if now.ns - s.lastRestart.ns < 10 * Second then s.restartCount + 1 else 1) ∧
      s1.lastRestart = now := by
  obtain ⟨ev, h, -, -⟩ := monitor_spec c now s
  refine ⟨_, ev, h, ?_, rfl⟩
  simp only [nextCount, Time.Sub_lt_ten]

/-- C3: from a state in which the first exit opens a fresh window (it comes 10 seconds or
more after the last restart), four exits of which the first three fall within 8 seconds and
the fourth comes 2 seconds after the third: each of the first three signals a restart and
leaves `restartCount` at most 3; the fourth signals no restart and emits one fatal
diagnostic. -/
theorem three_exits_then_fourth (s : Supervisor) (c1 c2 c3 c4 : Cmd) (t1 t2 t3 t4 : Time)
    (hfresh : ¬ t1.Sub s.lastRestart < 10 * Second)
    (h12 : t1.ns ≤ t2.ns) (h23 : t2.ns ≤ t3.ns) (h13 : t3.ns - t1.ns ≤ 8 * Second)
    (h34 : t4.ns = t3.ns + 2 * Second) :
    ∃ s1 e1 s2 e2 s3 e3 s4 e4,
      runExits s [(c1, t1), (c2, t2), (c3, t3), (c4, t4)] =
        [(s1, e1), (s2, e2), (s3, e3), (s4, e4)] ∧
      (signalsRestart e1 = true ∧ s1.restartCount ≤ 3) ∧
      (signalsRestart e2 = true ∧ s2.restartCount ≤ 3) ∧
      (signalsRestart e3 = true ∧ s3.restartCount ≤ 3) ∧
      (signalsRestart e4 = false ∧ fatalCount e4 = 1 ∧ 3 < s4.restartCount) := by
  have hS : Second = (1000000000 : Int) := rfl
  rw [hS] at h13 h34
  obtain ⟨e1, hr1, hs1, -⟩ := runExits_cons c1 t1 [(c2, t2), (c3, t3), (c4, t4)] s
  have hn1 : nextCount t1 s = 1 := nextCount_of_not_lt t1 s hfresh
  rw [hn1] at hr1 hs1
  obtain ⟨e2, hr2, hs2, -⟩ := runExits_cons c2 t2 [(c3, t3), (c4, t4)]
    { s with restartCount := 1, lastRestart := t1 }
  have hn2 : nextCount t2 { s with restartCount := 1, lastRestart := t1 } = 2 := by
    rw [nextCount_of_lt _ _ (by rw [Time.Sub_lt_ten, hS]; show t2.ns - t1.ns < _; omega)]
    rfl
  rw [hn2] at hr2 hs2
  have hr2 : runExits { s with restartCount := 1, lastRestart := t1 }
      [(c2, t2), (c3, t3), (c4, t4)] =
      ({ s with restartCount := 2, lastRestart := t2 }, e2) ::
        runExits { s with restartCount := 2, lastRestart := t2 } [(c3, t3), (c4, t4)] := hr2
  obtain ⟨e3, hr3, hs3, -⟩ := runExits_cons c3 t3 [(c4, t4)]
    { s with restartCount := 2, lastRestart := t2 }
  have hn3 : nextCount t3 { s with restartCount := 2, lastRestart := t2 } = 3 := by
    rw [nextCount_of_lt _ _ (by rw [Time.Sub_lt_ten, hS]; show t3.ns - t2.ns < _; omega)]
    rfl
  rw [hn3] at hr3 hs3
  have hr3 : runExits { s with restartCount := 2, lastRestart := t2 } [(c3, t3), (c4, t4)] =
      ({ s with restartCount := 3, lastRestart := t3 }, e3) ::
        runExits { s with restartCount := 3, lastRestart := t3 } [(c4, t4)] := hr3
  obtain ⟨e4, hr4, hs4, hf4⟩ := runExits_cons c4 t4 []
    { s with restartCount := 3, lastRestart := t3 }
  have hn4 : nextCount t4 { s with restartCount := 3, lastRestart := t3 } = 4 := by
    rw [nextCount_of_lt _ _ (by rw [Time.Sub_lt_ten, hS]; show t4.ns - t3.ns < _; omega)]
    rfl
  rw [hn4] at hr4 hs4 hf4
  have hr4 : runExits { s with restartCount := 3, lastRestart := t3 } [(c4, t4)] =
      [({ s with restartCount := 4, lastRestart := t4 }, e4)] := hr4
  refine ⟨{ s with restartCount := 1, lastRestart := t1 }, e1,
    { s with restartCount := 2, lastRestart := t2 }, e2,
    { s with restartCount := 3, lastRestart := t3 }, e3,
    { s with restartCount := 4, lastRestart := t4 }, e4, ?_, ?_, ?_, ?_, ?_⟩
  · rw [hr1, hr2, hr3, hr4]
  · simp [hs1]
  · simp [hs2]
  · simp [hs3]
  · simp [hs4, hf4]

/-- C3, witness: exits at 0, 3, 8 and 10 seconds, from the initial state. -/
theorem three_exits_then_fourth_witness :
    ∃ s1 e1 s2 e2 s3 e3 s4 e4,
      runExits Supervisor.init
          [(crashed, secondsIn 0), (crashed, secondsIn 3), (crashed, secondsIn 8),
            (crashed, secondsIn 10)] =
        [(s1, e1), (s2, e2), (s3, e3), (s4, e4)] ∧
      (signalsRestart e1 = true ∧ s1.restartCount ≤ 3) ∧
      (signalsRestart e2 = true ∧ s2.restartCount ≤ 3) ∧
      (signalsRestart e3 = true ∧ s3.restartCount ≤ 3) ∧
      (signalsRestart e4 = false ∧ fatalCount e4 = 1 ∧ 3 < s4.restartCount) :=
  three_exits_then_fourth Supervisor.init crashed crashed crashed crashed
    (secondsIn 0) (secondsIn 3) (secondsIn 8) (secondsIn 10)
    (by decide) (by decide) (by decide) (by decide) (by decide)

/-- Running the engine appends events to the trace, none of them a restart signal. -/
theorem RunRCloneCommand_events (X : ExecSys σ) (command : List String) (w : World σ) :
    ∃ ev, (RunRCloneCommand X command w).2.trace = w.trace ++ ev ∧
      signalsRestart ev = false := by
  unfold RunRCloneCommand
  simp only [World.diag, World.emit]
  split
  · exact ⟨_, by simp only [List.append_assoc]; rfl, by
      simp [signalsRestart, Event.isRestartSignal]⟩
  · split
    · exact ⟨_, by simp only [List.append_assoc]; rfl, by
        simp [signalsRestart, Event.isRestartSignal]⟩
    · split
      · exact ⟨_, by simp only [List.append_assoc]; rfl, by
          simp [signalsRestart, Event.isRestartSignal]⟩
      · split
        · exact ⟨_, by simp only [List.append_assoc]; rfl, by
            simp [signalsRestart, Event.isRestartSignal]⟩
        · exact ⟨_, by simp only [List.append_assoc]; rfl, by
            simp [signalsRestart, Event.isRestartSignal]⟩

/-- A start whose monitor returns: the counter is the one the monitor computes, and a restart
is signalled exactly when it is at most 3. -/
theorem startRCloneProcess_some (S : Sys σ) (X : ExecSys σ) (now : Time) (g g1 : Supervisor)
    (w w1 : World σ) (h : startRCloneProcess S X now g w = some (g1, w1)) :
    g1.restartCount = nextCount now g ∧
      signalsRestart (eventsSince w w1) = decide (g1.restartCount ≤ 3) := by
  obtain ⟨ev, htr, hev⟩ := RunRCloneCommand_events X
    ["rcd", "--rc-user=" ++ S.ProxyRCloneUser, "--rc-pass=" ++ S.ProxyRClonePwd,
      "--config=" ++ (X.CONFIGFOLDER ++ "rclone.conf"), "--rc-baseurl=/cosmos/rclone"] w
  unfold startRCloneProcess at h
  simp only at h
  cases hc : (RunRCloneCommand X
    ["rcd", "--rc-user=" ++ S.ProxyRCloneUser, "--rc-pass=" ++ S.ProxyRClonePwd,
      "--config=" ++ (X.CONFIGFOLDER ++ "rclone.conf"), "--rc-baseurl=/cosmos/rclone"] w).1 with
  | none => simp [hc, monitorRCloneProcess] at h
  | some c =>
    rw [hc] at h
    obtain ⟨mev, hm, hsig, -⟩ := monitor_spec c now { g with rcloneCmd := some c }
    rw [hm] at h
    simp only [Option.some.injEq, Prod.mk.injEq] at h
    obtain ⟨hg, hw⟩ := h
    subst hg
    subst hw
    refine ⟨rfl, ?_⟩
    have hev2 : eventsSince w
        { sys := (RunRCloneCommand X
            ["rcd", "--rc-user=" ++ S.ProxyRCloneUser, "--rc-pass=" ++ S.ProxyRClonePwd,
              "--config=" ++ (X.CONFIGFOLDER ++ "rclone.conf"),
              "--rc-baseurl=/cosmos/rclone"] w).2.sys,
          trace := (RunRCloneCommand X
            ["rcd", "--rc-user=" ++ S.ProxyRCloneUser, "--rc-pass=" ++ S.ProxyRClonePwd,
              "--config=" ++ (X.CONFIGFOLDER ++ "rclone.conf"),
              "--rc-baseurl=/cosmos/rclone"] w).2.trace ++ mev } = ev ++ mev := by
      simp [eventsSince, htr]
    rw [hev2]
    have : signalsRestart (ev ++ mev) = signalsRestart mev := by
      simp only [signalsRestart, List.any_append] at hev ⊢
      rw [hev, Bool.false_or]
    rw [this, hsig]

/-- A run of the supervised engine that handled an exit and ended with the counter above 3
does not use any exit offered after it. -/
theorem supervision_stops_at_open_circuit (S : Sys σ) (X : ExecSys σ) (exits : List Time) :
    ∀ (later : List Time) (g g1 : Supervisor) (w w1 : World σ), exits ≠ [] →
      superviseEngine S X exits g w = some (g1, w1) → 3 < g1.restartCount →
      superviseEngine S X (exits ++ later) g w = some (g1, w1) := by
  induction exits with
  | nil => intro later g g1 w w1 hne; exact absurd rfl hne
  | cons now rest ih =>
    intro later g g1 w w1 _ hrun hopen
    simp only [List.cons_append, superviseEngine] at hrun ⊢
    cases hs : startRCloneProcess S X now g w with
    | none => rw [hs] at hrun; simp at hrun
    | some p =>
      obtain ⟨g2, w2⟩ := p
      rw [hs] at hrun
      simp only at hrun ⊢
      obtain ⟨-, hsig⟩ := startRCloneProcess_some S X now g g2 w w2 hs
      by_cases hr : signalsRestart (eventsSince w w2) = true
      · rw [if_pos hr] at hrun ⊢
        cases rest with
        | nil =>
          exfalso
          simp only [superviseEngine] at hrun
          split at hrun
          · simp at hrun
          · simp only [Option.some.injEq] at hrun
            have hcount : g1.restartCount = g2.restartCount := by
              have := congrArg (fun p => p.1.restartCount) hrun
              exact this.symm
            rw [hsig] at hr
            have : g2.restartCount ≤ 3 := by simpa using hr
            omega
        | cons t ts => exact ih later g2 g1 w2 w1 (by simp) hrun hopen
      · rw [if_neg hr] at hrun ⊢
        exact hrun

/-- C4: in a run of the supervised engine that handled at least one exit and ended with
`restartCount` above 3, the exit that left it there signalled no restart, no engine was
started after it and no monitor is left: whatever exits are offered afterwards, at whatever
times, the run is the same. None of them is handled, so nothing more is signalled, and a
restart can only come from starting the supervisor again. -/
theorem circuit_open_ends_supervision (S : Sys σ) (X : ExecSys σ) (exits later : List Time)
    (g g1 : Supervisor) (w w1 : World σ) (hne : exits ≠ [])
    (hrun : superviseEngine S X exits g w = some (g1, w1)) (hopen : 3 < g1.restartCount) :
    superviseEngine S X (exits ++ later) g w = some (g1, w1) ∧
      (superviseEngine S X (exits ++ later) g w).map (fun p => restartSignals p.2.trace) =
        some (restartSignals w1.trace) := by
  have h := supervision_stops_at_open_circuit S X exits later g g1 w w1 hne hrun hopen
  exact ⟨h, by rw [h]; rfl⟩

/-- C4, witness: four exits 1 second apart from the initial state leave `restartCount` at 4
after three restart signals; with two more exits offered 10 and 97 seconds later the run is
the same. -/
theorem circuit_open_ends_supervision_witness :
    (superviseEngine (calmSys Unit) spawnExec fastExits Supervisor.init start).map
        (fun p => (p.1.restartCount, restartSignals p.2.trace)) = some (4, 3) ∧
    superviseEngine (calmSys Unit) spawnExec (fastExits ++ [secondsIn 13, secondsIn 100])
        Supervisor.init start =
      superviseEngine (calmSys Unit) spawnExec fastExits Supervisor.init start := by
  refine ⟨by decide, ?_⟩
  have h := (circuit_open_ends_supervision (calmSys Unit) spawnExec fastExits
    [secondsIn 13, secondsIn 100] Supervisor.init
    ((superviseEngine (calmSys Unit) spawnExec fastExits Supervisor.init start).getD
      (Supervisor.init, start)).1 start
    ((superviseEngine (calmSys Unit) spawnExec fastExits Supervisor.init start).getD
      (Supervisor.init, start)).2 (by decide) rfl (by decide)).1
  rw [h]
  rfl

/-! ## Traces -/

/-- One call of `runRDC` appends its three events, whatever the engine answers. -/
theorem runRDC_trace (S : Sys σ) (path : String) (params : List String) (w : World σ) :
    (runRDC S path params w).2.trace = w.trace ++ rdcEvents S path params := by
  unfold runRDC
  simp only [clientDo, World.diag, World.emit, rdcEvents]
  split
  · next h => simp at h; rw [← h.2]
  · next resp w1 h =>
    simp at h
    have hw : w1.trace = w.trace ++ rdcEvents S path params := by rw [← h.2]; simp [rdcEvents]
    simp only [rdcEvents] at hw
    split
    · exact hw
    · split
      · split
        · split <;> exact hw
        · exact hw
      · exact hw

/-- The requests of two traces put end to end. -/
theorem requests_append (a b : List Event) : requests (a ++ b) = requests a ++ requests b := by
  simp [requests]

/-- One call of `runRDC` sends exactly one request. -/
theorem runRDC_requests (S : Sys σ) (path : String) (params : List String) (w : World σ) :
    requests (runRDC S path params w).2.trace = requests w.trace ++ [rdcRequest S path params] := by
  rw [runRDC_trace, requests_append]
  simp [requests, rdcEvents]

/-- The fatal diagnostics of two traces put end to end. -/
theorem fatalCount_append (a b : List Event) : fatalCount (a ++ b) = fatalCount a + fatalCount b := by
  simp [fatalCount]

/-- A call of `runRDC` emits no fatal diagnostic. -/
theorem runRDC_fatalCount (S : Sys σ) (path : String) (params : List String) (w : World σ) :
    fatalCount (runRDC S path params w).2.trace = fatalCount w.trace := by
  rw [runRDC_trace, fatalCount_append]
  simp [fatalCount, rdcEvents, Event.isMajorError]

/-- A diagnostic is not a request. -/
theorem requests_diag (w : World σ) (l : Level) (m : String) (e : Option String) :
    requests (w.diag l m e).trace = requests w.trace := by
  simp [World.diag, World.emit, requests]

/-- A sleep is not a request. -/
theorem requests_timeSleep (S : Sys σ) (d : Duration) (w : World σ) :
    requests (timeSleep S d w).trace = requests w.trace := by
  simp [timeSleep, requests]

/-- A sleep is not a fatal diagnostic. -/
theorem fatalCount_timeSleep (S : Sys σ) (d : Duration) (w : World σ) :
    fatalCount (timeSleep S d w).trace = fatalCount w.trace := by
  simp [timeSleep, fatalCount, Event.isMajorError]

/-! ## Mounting -/

/-- The events of the tail of `mountRemoteStorage`: no directory listing, and either no
request and an error, or the one mount call with the user and group of the `chown`
value. -/
theorem mountEmptyDir_events (S : Sys σ) (rs : RemoteStorage) (w : World σ) :
    ∃ ev, (mountEmptyDir S rs (mountPointOf S rs) w).2.trace = w.trace ++ ev ∧
      (∀ e ∈ ev, e.isReadDir = false) ∧
      ((requests ev = [] ∧ (mountEmptyDir S rs (mountPointOf S rs) w).1 ≠ none) ∨
        ∃ uid gid, parseChown rs.Chown = .ok (uid, gid) ∧
          requests ev = [mountRequest S rs uid gid]) := by
  unfold mountEmptyDir
  simp only [jsonMarshal]
  generalize hchowned :
    (if rs.Chown ≠ "" then _ else _ : Option String × World σ) = chowned
  have hch : ∃ ev0, chowned.2.trace = w.trace ++ ev0 ∧ (∀ e ∈ ev0, e.isReadDir = false) ∧
      requests ev0 = [] := by
    by_cases hc : rs.Chown ≠ ""
    · rw [if_pos hc] at hchowned
      subst hchowned
      refine ⟨[.diag .log ("[STORAGE] Chowning " ++ mountPointOf S rs ++ " to " ++ rs.Chown) none,
        .exec "chown" [rs.Chown, mountPointOf S rs]
          (S.utilsExec "chown" [rs.Chown, mountPointOf S rs] w.sys).1.1
          (S.utilsExec "chown" [rs.Chown, mountPointOf S rs] w.sys).1.2,
        .diag .debug (S.utilsExec "chown" [rs.Chown, mountPointOf S rs] w.sys).1.1 none],
        ?_, ?_, ?_⟩
      · simp [utilsExec, World.diag, World.emit]
      · intro e he
        simp at he
        rcases he with rfl | rfl | rfl <;> rfl
      · simp [requests]
    · rw [if_neg hc] at hchowned
      subst hchowned
      exact ⟨[], by simp, by simp, by simp [requests]⟩
  obtain ⟨ev0, htr, hrd0, hrq0⟩ := hch
  clear hchowned
  rcases chowned with ⟨cerr, wc⟩
  cases cerr with
  | some e => exact ⟨ev0, htr, hrd0, Or.inl ⟨hrq0, by simp⟩⟩
  | none =>
    simp only
    cases hp : parseChown rs.Chown with
    | error e => exact ⟨ev0, htr, hrd0, Or.inl ⟨hrq0, by simp⟩⟩
    | ok ug =>
      obtain ⟨uid, gid⟩ := ug
      simp only
      have hrt := runRDC_trace S "/mount/mount" ["json", S.jsonEncode
        (mountPayload (rs.Name ++ ":") (mountPointOf S rs) uid gid)] wc
      rcases hr : runRDC S "/mount/mount" ["json", S.jsonEncode
        (mountPayload (rs.Name ++ ":") (mountPointOf S rs) uid gid)] wc with ⟨res, wm⟩
      rw [hr] at hrt
      simp only at hrt htr
      cases res with
      | error e =>
        refine ⟨ev0 ++ rdcEvents S "/mount/mount" ["json", S.jsonEncode
          (mountPayload (rs.Name ++ ":") (mountPointOf S rs) uid gid)], ?_, ?_, Or.inr ⟨uid, gid, rfl, ?_⟩⟩
        · simp only [hrt, htr, List.append_assoc]
        · intro e he
          rcases List.mem_append.mp he with h | h
          · exact hrd0 e h
          · simp [rdcEvents] at h
            rcases h with rfl | rfl | rfl <;> rfl
        · rw [requests_append, hrq0]
          simp [requests, rdcEvents, mountRequest]
      | ok body =>
        refine ⟨ev0 ++ rdcEvents S "/mount/mount" ["json", S.jsonEncode
          (mountPayload (rs.Name ++ ":") (mountPointOf S rs) uid gid)] ++
          [.diag .log ("[RemoteStorage] Successfully mounted " ++ rs.Name ++ " to " ++
            mountPointOf S rs) none], ?_, ?_, Or.inr ⟨uid, gid, rfl, ?_⟩⟩
        · simp only [World.diag, World.emit, hrt, htr, List.append_assoc]
        · intro e he
          rcases List.mem_append.mp he with h | h
          · rcases List.mem_append.mp h with h | h
            · exact hrd0 e h
            · simp [rdcEvents] at h
              rcases h with rfl | rfl | rfl <;> rfl
          · simp at h; subst h; rfl
        · rw [requests_append, requests_append, hrq0]
          simp [requests, rdcEvents, mountRequest]

/-- The events of the head of `mountRemoteStorage`: no directory listing and no request. -/
theorem prepareMountPoint_events (S : Sys σ) (mp : String) (w : World σ) :
    ∃ ev, (prepareMountPoint S mp w).2.trace = w.trace ++ ev ∧
      (∀ e ∈ ev, e.isReadDir = false) ∧ requests ev = [] := by
  unfold prepareMountPoint
  simp only
  by_cases h1 : IsNotExist (osStat S mp w).1 = true
  · by_cases h2 : IsNotExist (osStat S mp (osStat S mp w).2).1 = true
    · refine ⟨[.stat mp (statErr (S.osStat mp w.sys).1),
        .stat mp (statErr (S.osStat mp (S.osStat mp w.sys).2).1),
        .mkdirAll mp (S.osMkdirAll mp (S.osStat mp (S.osStat mp w.sys).2).2).1], ?_, ?_, ?_⟩
      · simp [h1, h2]; simp [osStat, osMkdirAll]
      · intro e he
        simp at he
        rcases he with rfl | rfl | rfl <;> rfl
      · simp [requests]
    · refine ⟨[.stat mp (statErr (S.osStat mp w.sys).1),
        .stat mp (statErr (S.osStat mp (S.osStat mp w.sys).2).1)], ?_, ?_, ?_⟩
      · simp [h1, h2]; simp [osStat]
      · intro e he
        simp at he
        rcases he with rfl | rfl <;> rfl
      · simp [requests]
  · by_cases h2 : IsNotExist (osStat S mp (Unmount S mp true (osStat S mp w).2)).1 = true
    · refine ⟨[.stat mp (statErr (S.osStat mp w.sys).1), .unmount mp true,
        .stat mp (statErr (S.osStat mp (S.Unmount mp true (S.osStat mp w.sys).2)).1),
        .mkdirAll mp (S.osMkdirAll mp
          (S.osStat mp (S.Unmount mp true (S.osStat mp w.sys).2)).2).1], ?_, ?_, ?_⟩
      · simp [h1, h2]; simp [osStat, osMkdirAll, Unmount]
      · intro e he
        simp at he
        rcases he with rfl | rfl | rfl | rfl <;> rfl
      · simp [requests]
    · refine ⟨[.stat mp (statErr (S.osStat mp w.sys).1), .unmount mp true,
        .stat mp (statErr (S.osStat mp (S.Unmount mp true (S.osStat mp w.sys).2)).1)],
        ?_, ?_, ?_⟩
      · simp [h1, h2]; simp [osStat, Unmount]
      · intro e he
        simp at he
        rcases he with rfl | rfl | rfl <;> rfl
      · simp [requests]

/-- The events of one call of `mountRemoteStorage`, what a directory listing among them
says about the result, and the requests among them. -/
theorem mountRemoteStorage_events (S : Sys σ) (rs : RemoteStorage) (w : World σ) :
    ∃ ev, (mountRemoteStorage S rs w).2.trace = w.trace ++ ev ∧
      (∀ files, files ≠ [] → Event.readDir (mountPointOf S rs) files none ∈ ev →
        (mountRemoteStorage S rs w).1 =
          some "[RemoteStorage] mount point directory is not empty" ∧ requests ev = []) ∧
      ((requests ev = [] ∧ (mountRemoteStorage S rs w).1 ≠ none) ∨
        ∃ uid gid, parseChown rs.Chown = .ok (uid, gid) ∧
          requests ev = [mountRequest S rs uid gid]) := by
  obtain ⟨hd, hhd, hrd, hrq⟩ := prepareMountPoint_events S (mountPointOf S rs) w
  unfold mountRemoteStorage
  simp only
  rcases hp : prepareMountPoint S (mountPointOf S rs) w with ⟨perr, wp⟩
  rw [hp] at hhd
  simp only at hhd
  cases perr with
  | some err =>
    refine ⟨hd, hhd, ?_, Or.inl ⟨hrq, by simp⟩⟩
    intro files _ hmem
    have := hrd _ hmem
    simp [Event.isReadDir] at this
  | none =>
    simp only
    have hsys : ∀ x : Except String (List String) × World σ,
        x = ioutilReadDir S (mountPointOf S rs) wp →
        x.2.trace = wp.trace ++ [match x.1 with
          | .error e => Event.readDir (mountPointOf S rs) [] (some e)
          | .ok files => Event.readDir (mountPointOf S rs) files none] := by
      intro x hx
      subst hx
      unfold ioutilReadDir
      simp only
      split <;> simp_all
    rcases hl : ioutilReadDir S (mountPointOf S rs) wp with ⟨res, wl⟩
    have hwl := hsys _ hl.symm
    simp only at hwl
    cases res with
    | error e =>
      simp only at hwl ⊢
      refine ⟨hd ++ [Event.readDir (mountPointOf S rs) [] (some e)], ?_, ?_, Or.inl ⟨?_, by simp⟩⟩
      · rw [hwl, hhd, List.append_assoc]
      · intro files _ hmem
        rcases List.mem_append.mp hmem with h | h
        · have := hrd _ h
          simp [Event.isReadDir] at this
        · simp at h
      · rw [requests_append, hrq]; simp [requests]
    | ok files =>
      simp only at hwl ⊢
      by_cases hlen : files.length > 0
      · rw [if_pos hlen]
        refine ⟨hd ++ [Event.readDir (mountPointOf S rs) files none], ?_, ?_, Or.inl ⟨?_, by simp⟩⟩
        · rw [hwl, hhd, List.append_assoc]
        · intro _ _ _
          exact ⟨rfl, by rw [requests_append, hrq]; simp [requests]⟩
        · rw [requests_append, hrq]; simp [requests]
      · rw [if_neg hlen]
        have hnil : files = [] := by
          cases files with
          | nil => rfl
          | cons a l => simp at hlen
        subst hnil
        obtain ⟨tl, htl, htrd, htrq⟩ := mountEmptyDir_events S rs wl
        refine ⟨hd ++ [Event.readDir (mountPointOf S rs) [] none] ++ tl, ?_, ?_, ?_⟩
        · rw [htl, hwl, hhd]; simp only [List.append_assoc]
        · intro files hne hmem
          exfalso
          rcases List.mem_append.mp hmem with h | h
          · rcases List.mem_append.mp h with h | h
            · have := hrd _ h
              simp [Event.isReadDir] at this
            · simp at h
              exact hne h
          · have := htrd _ h
            simp [Event.isReadDir] at this
        · have hq : requests (hd ++ [Event.readDir (mountPointOf S rs) [] none] ++ tl) =
              requests tl := by
            rw [requests_append, requests_append, hrq]; simp [requests]
          rw [hq]
          exact htrq

/-- C5, the code at the failing input: the remote "photos" with the ownership hint
"nobody:nogroup", two colon-separated parts that are not integers, in a system where every
call succeeds. `mountRemoteStorage` returns nil and sends one request, the mount call, with
user 0 and group 0 in its payload. -/
theorem mount_non_integer_chown_as_root :
    parseChown "nobody:nogroup" = .ok (0, 0) ∧
    (mountRemoteStorage (calmSys Unit) ⟨"photos", "nobody:nogroup"⟩ start).1 = none ∧
    requests (mountRemoteStorage (calmSys Unit) ⟨"photos", "nobody:nogroup"⟩ start).2.trace =
      [mountRequest (calmSys Unit) ⟨"photos", "nobody:nogroup"⟩ 0 0] ∧
    (mountRequest (calmSys Unit) ⟨"photos", "nobody:nogroup"⟩ 0 0).url =
      "http://localhost:5572/cosmos/rclone/mount/mount" ∧
    (mountRequest (calmSys Unit) ⟨"photos", "nobody:nogroup"⟩ 0 0).body =
      "\x7b\"fs\":\"photos:\",\"mountPoint\":\"/mnt/cosmos-storage-photos\",\"mountType\":\"mount\",\"vfsOpt\":\x7b\"CacheMode\":\"full\",\"CacheMaxAge\":\"24h\",\"ReadChunkSize\":\"10M\",\"ReadChunkSizeLimit\":\"100M\",\"UID\":0,\"GID\":0,\"Umask\":63\x7d,\"mountOpt\":\x7b\"AllowOther\":true\x7d\x7d" := by
  refine ⟨rfl, ?_, ?_, ?_, ?_⟩ <;> decide

/-- C6: when the listing of the mount directory made by `mountRemoteStorage` returns at least
one entry, the call returns the error "mount point directory is not empty" and sends no
request at all, so no mount call. -/
theorem mount_refuses_directory_with_entries (S : Sys σ) (rs : RemoteStorage) (w : World σ)
    (files : List String) (hne : files ≠ [])
    (hread : Event.readDir (mountPointOf S rs) files none ∈
      eventsSince w (mountRemoteStorage S rs w).2) :
    (mountRemoteStorage S rs w).1 =
        some "[RemoteStorage] mount point directory is not empty" ∧
      requests (eventsSince w (mountRemoteStorage S rs w).2) = [] := by
  obtain ⟨ev, htr, h1, -⟩ := mountRemoteStorage_events S rs w
  have hev : eventsSince w (mountRemoteStorage S rs w).2 = ev := by
    simp [eventsSince, htr]
  rw [hev] at hread ⊢
  exact h1 files hne hread

/-- C6, witness: the remote "backup" in a system where the mount directory holds
"lost+found". -/
theorem mount_refuses_directory_with_entries_witness :
    (mountRemoteStorage crowdedSys ⟨"backup", ""⟩ start).1 =
        some "[RemoteStorage] mount point directory is not empty" ∧
      requests (eventsSince start (mountRemoteStorage crowdedSys ⟨"backup", ""⟩ start).2) = [] :=
  mount_refuses_directory_with_entries crowdedSys ⟨"backup", ""⟩ start ["lost+found"]
    (by decide) (by decide)

/-! ## The readiness wait -/

/-- The world after one more probe. -/
theorem afterProbes_succ (S : Sys σ) (k : Nat) : ∀ w : World σ,
    afterProbes S (k + 1) w = timeSleep S (2 * Second) (probe S k w).2 := by
  induction k with
  | zero => intro w; rfl
  | succ k ih =>
    intro w
    show afterProbes S (k + 1) (timeSleep S (2 * Second) (runRDC S "/core/version" [] w).2) = _
    rw [ih]
    rfl

/-- The requests after `k` probes: `k` times the version request. -/
theorem afterProbes_requests (S : Sys σ) (k : Nat) (w : World σ) :
    requests (afterProbes S k w).trace =
      requests w.trace ++ List.replicate k (rdcRequest S "/core/version" []) := by
  induction k with
  | zero => simp [afterProbes]
  | succ k ih =>
    rw [afterProbes_succ, requests_timeSleep, probe, runRDC_requests, ih,
      List.replicate_succ', List.append_assoc]

/-- Probes and sleeps emit no fatal diagnostic. -/
theorem afterProbes_fatalCount (S : Sys σ) (k : Nat) (w : World σ) :
    fatalCount (afterProbes S k w).trace = fatalCount w.trace := by
  induction k with
  | zero => simp [afterProbes]
  | succ k ih => rw [afterProbes_succ, fatalCount_timeSleep, probe, runRDC_fatalCount, ih]

/-- One turn of the loop on a probe that fails. -/
theorem waitLoop_step_fail (S : Sys σ) (fuel : Nat) (retries : Int) (w : World σ)
    (h : failed (runRDC S "/core/version" [] w) = true) :
    waitLoop S (fuel + 1) retries w =
      if retries > 5 then
        some (false, (timeSleep S (2 * Second) (runRDC S "/core/version" [] w).2).diag
          .majorError "[RemoteStorage] Failed to reach RClone, check the port 5572 is free" none)
      else waitLoop S fuel (retries + 1)
        (timeSleep S (2 * Second) (runRDC S "/core/version" [] w).2) := by
  rcases hr : runRDC S "/core/version" [] w with ⟨r, w1⟩
  rw [hr] at h
  cases r with
  | ok b => simp [failed] at h
  | error e => simp only [waitLoop, hr]

/-- One turn of the loop on a probe that succeeds. -/
theorem waitLoop_step_ok (S : Sys σ) (fuel : Nat) (retries : Int) (w : World σ)
    (h : failed (runRDC S "/core/version" [] w) = false) :
    waitLoop S (fuel + 1) retries w = some (true, (runRDC S "/core/version" [] w).2) := by
  rcases hr : runRDC S "/core/version" [] w with ⟨r, w1⟩
  rw [hr] at h
  cases r with
  | ok b => simp only [waitLoop, hr]
  | error e => simp [failed] at h

/-- From `j` failed probes on: when every probe up to the seventh fails, the loop gives up
after the seventh. -/
theorem waitLoop_all_fail (S : Sys σ) (w : World σ)
    (hfail : ∀ k, k < 7 → failed (probe S k w) = true) :
    ∀ (n j : Nat), j + n = 6 → ∀ fuel, n + 1 ≤ fuel →
      waitLoop S fuel (j : Int) (afterProbes S j w) =
        some (false, (afterProbes S 7 w).diag .majorError
          "[RemoteStorage] Failed to reach RClone, check the port 5572 is free" none) := by
  intro n
  induction n with
  | zero =>
    intro j hj fuel hfuel
    obtain ⟨f, rfl⟩ : ∃ f, fuel = f + 1 := ⟨fuel - 1, by omega⟩
    have hj6 : j = 6 := by omega
    subst hj6
    rw [waitLoop_step_fail S f _ _ (hfail 6 (by omega))]
    rw [if_pos (by decide)]
    rw [afterProbes_succ]; rfl
  | succ n ih =>
    intro j hj fuel hfuel
    obtain ⟨f, rfl⟩ : ∃ f, fuel = f + 1 := ⟨fuel - 1, by omega⟩
    rw [waitLoop_step_fail S f _ _ (hfail j (by omega))]
    have : ¬ ((j : Int) > 5) := by omega
    rw [if_neg this]
    have := ih (j + 1) (by omega) f (by omega)
    rw [afterProbes_succ] at this
    exact_mod_cast this

/-- From `j` failed probes on: when probe `k` is the first to succeed, the loop breaks
there. -/
theorem waitLoop_first_ok (S : Sys σ) (w : World σ) (k : Nat) (hk : k < 7)
    (hfail : ∀ i, i < k → failed (probe S i w) = true)
    (hok : failed (probe S k w) = false) :
    ∀ (n j : Nat), j + n = k → ∀ fuel, n + 1 ≤ fuel →
      waitLoop S fuel (j : Int) (afterProbes S j w) = some (true, (probe S k w).2) := by
  intro n
  induction n with
  | zero =>
    intro j hj fuel hfuel
    obtain ⟨f, rfl⟩ : ∃ f, fuel = f + 1 := ⟨fuel - 1, by omega⟩
    have hjk : j = k := by omega
    subst hjk
    rw [waitLoop_step_ok S f _ _ hok]; rfl
  | succ n ih =>
    intro j hj fuel hfuel
    obtain ⟨f, rfl⟩ : ∃ f, fuel = f + 1 := ⟨fuel - 1, by omega⟩
    rw [waitLoop_step_fail S f _ _ (hfail j (by omega))]
    have : ¬ ((j : Int) > 5) := by omega
    rw [if_neg this]
    have := ih (j + 1) (by omega) f (by omega)
    rw [afterProbes_succ] at this
    exact_mod_cast this

/-- C7, counterexample: in a system where the engine never answers, the wait sends 7 probes,
not 6, before it gives up with its fatal diagnostic. -/
theorem readiness_wait_not_six_probes :
    (waitForRClone deafSys 100 start).map (fun w => (requests w.trace).length) = some 7 ∧
      (waitForRClone deafSys 100 start).map (fun w => fatalCount w.trace) = some 1 := by
  decide

/-- C7, amended: with fuel for 7 turns the wait returns. When each of the first 7 probes of
the version endpoint fails, exactly 7 probes are sent and nothing else (so `remountAll`,
which starts with a request, is not called) and one fatal diagnostic is emitted. When one
of the first 7 probes succeeds after failed ones, the wait goes on to `remountAll` and has
emitted no fatal diagnostic by then. -/
theorem readiness_wait_seven_probes (S : Sys σ) (w : World σ) (fuel : Nat) (hfuel : 7 ≤ fuel) :
    ((∀ k, k < 7 → failed (probe S k w) = true) →
      ∃ w1, waitForRClone S fuel w = some w1 ∧
        requests w1.trace =
          requests w.trace ++ List.replicate 7 (rdcRequest S "/core/version" []) ∧
        fatalCount w1.trace = fatalCount w.trace + 1) ∧
    (∀ k, k < 7 → (∀ i, i < k → failed (probe S i w) = true) →
      failed (probe S k w) = false →
      waitForRClone S fuel w = some (remountAll S
        ((probe S k w).2.diag .log "[RemoteStorage] RClone started and ready!" none)) ∧
      fatalCount ((probe S k w).2.diag .log "[RemoteStorage] RClone started and ready!"
        none).trace = fatalCount w.trace) := by
  constructor
  · intro hfail
    have h := waitLoop_all_fail S w hfail 6 0 (by omega) fuel (by omega)
    refine ⟨(afterProbes S 7 w).diag .majorError
      "[RemoteStorage] Failed to reach RClone, check the port 5572 is free" none, ?_, ?_, ?_⟩
    · unfold waitForRClone
      have h0 : waitLoop S fuel 0 w = _ := h
      rw [h0]
    · rw [requests_diag, afterProbes_requests]
    · simp only [World.diag, World.emit, fatalCount_append, afterProbes_fatalCount]
      simp [fatalCount, Event.isMajorError]
  · intro k hk hfail hok
    have h := waitLoop_first_ok S w k hk hfail hok k 0 (by omega) fuel (by omega)
    constructor
    · unfold waitForRClone
      have h0 : waitLoop S fuel 0 w = _ := h
      rw [h0]
    · simp only [World.diag, World.emit, fatalCount_append, probe, runRDC_fatalCount,
        afterProbes_fatalCount]
      simp [fatalCount, Event.isMajorError]

/-- C7, witness: an engine that never answers, and an engine that answers the third probe. -/
theorem readiness_wait_seven_probes_witness :
    (∃ w1, waitForRClone deafSys 10 start = some w1 ∧
      requests w1.trace =
        requests start.trace ++ List.replicate 7 (rdcRequest deafSys "/core/version" []) ∧
      fatalCount w1.trace = fatalCount start.trace + 1) ∧
    (waitForRClone slowStartSys 10 startCounting = some (remountAll slowStartSys
        ((probe slowStartSys 2 startCounting).2.diag .log
          "[RemoteStorage] RClone started and ready!" none)) ∧
      fatalCount ((probe slowStartSys 2 startCounting).2.diag .log
        "[RemoteStorage] RClone started and ready!" none).trace =
          fatalCount startCounting.trace) :=
  ⟨(readiness_wait_seven_probes deafSys start 10 (by decide)).1 (by decide),
    (readiness_wait_seven_probes slowStartSys startCounting 10 (by decide)).2 2 (by decide)
      (by decide) (by decide)⟩

/-! ## The fingerprint check -/

/-- C8: when `fileChanged` reports a change, the stored fingerprint after the call is the
hash and the modification time it has just read, and a further call with that stored
fingerprint, in any world where the file still has that hash and modification time, reports
no change and leaves the fingerprint as it is. -/
theorem fileChanged_settles (S : Sys σ) (filePath : String) (lastHash : String)
    (lastModTime : Time) (w : World σ)
    (hchanged : (fileChanged S filePath lastHash lastModTime w).1.1 = true) :
    (fileChanged S filePath lastHash lastModTime w).1.2.1 = (getFileHash S filePath w).1 ∧
    (fileChanged S filePath lastHash lastModTime w).1.2.2 =
      (getFileModTime S filePath (getFileHash S filePath w).2).1 ∧
    ∀ w1 : World σ,
      (getFileHash S filePath w1).1 = (getFileHash S filePath w).1 →
      (getFileModTime S filePath (getFileHash S filePath w1).2).1 =
        (getFileModTime S filePath (getFileHash S filePath w).2).1 →
      (fileChanged S filePath (fileChanged S filePath lastHash lastModTime w).1.2.1
        (fileChanged S filePath lastHash lastModTime w).1.2.2 w1).1 =
        (false, (getFileHash S filePath w).1,
          (getFileModTime S filePath (getFileHash S filePath w).2).1) := by
  unfold fileChanged at hchanged ⊢
  simp only at hchanged ⊢
  split_ifs at hchanged ⊢ with h
  · refine ⟨rfl, rfl, ?_⟩
    intro w1 hh hm
    simp [hh, hm, Time.Equal]

/-- C8, witness: the first check of a file against an empty fingerprint, then a second check in
the world the first one left. -/
theorem fileChanged_settles_witness :
    (fileChanged (calmSys Unit) "/config/rclone.conf" "" Time.zero start).1.1 = true ∧
    (fileChanged (calmSys Unit) "/config/rclone.conf"
      (fileChanged (calmSys Unit) "/config/rclone.conf" "" Time.zero start).1.2.1
      (fileChanged (calmSys Unit) "/config/rclone.conf" "" Time.zero start).1.2.2
      (fileChanged (calmSys Unit) "/config/rclone.conf" "" Time.zero start).2).1 =
      (false, "d41d8cd98f00b204e9800998ecf8427e", ⟨63000000000000000000⟩) :=
  ⟨by decide,
    (fileChanged_settles (calmSys Unit) "/config/rclone.conf" "" Time.zero start
      (by decide)).2.2 _ rfl rfl⟩

/-! ## Unmounting and remounting -/

/-- The loop of `unmountAll` sends one unmount request per mount point, in list order,
whatever the answers. -/
theorem unmountLoop_requests (S : Sys σ) (mounts : List String) : ∀ w : World σ,
    requests (unmountLoop S mounts w).trace =
      requests w.trace ++ mounts.map (unmountRequest S) := by
  induction mounts with
  | nil => intro w; simp [unmountLoop]
  | cons mp rest ih =>
    intro w
    unfold unmountLoop
    simp only [jsonMarshal]
    have ht := runRDC_requests S "/mount/unmount"
      ["json", S.jsonEncode (.map [("mountPoint", .str mp)])]
      (w.diag .log ("[RemoteStorage] Unmounting " ++ mp) none)
    rw [requests_diag] at ht
    rcases h : runRDC S "/mount/unmount" ["json", S.jsonEncode (.map [("mountPoint", .str mp)])]
      (w.diag .log ("[RemoteStorage] Unmounting " ++ mp) none) with ⟨r, w1⟩
    rw [h] at ht
    cases r with
    | error err => simp only [ih, requests_diag]; simp [ht, unmountRequest]
    | ok body => simp only [ih, requests_diag]; simp [ht, unmountRequest]

/-- When the reply to the listing decodes, `unmountAll` returns no error and sends, after the
listing request, exactly one unmount request per mount point decoded from the member
`mounts` of the reply, in order, whatever the engine answers to each of them. -/
theorem unmountAll_best_effort (S : Sys σ) (w : World σ) (response : String)
    (mounts : List String)
    (hlist : (runRDC S "/mount/listmounts" []
      (w.diag .log "[RemoteStorage] Unmounting all remote storages" none)).1 = .ok response)
    (hparse : unmarshalMountList S response = .ok mounts) :
    (unmountAll S w).1 = none ∧
      requests (unmountAll S w).2.trace =
        requests w.trace ++
          rdcRequest S "/mount/listmounts" [] :: mounts.map (unmountRequest S) := by
  have ht := runRDC_requests S "/mount/listmounts" []
    (w.diag .log "[RemoteStorage] Unmounting all remote storages" none)
  rw [requests_diag] at ht
  rcases h : runRDC S "/mount/listmounts" []
    (w.diag .log "[RemoteStorage] Unmounting all remote storages" none) with ⟨r, w1⟩
  rw [h] at ht hlist
  have hr : r = .ok response := hlist
  subst hr
  simp only [unmountAll, h, hparse, unmountLoop_requests, ht]
  simp

/-- Three mounts under the key `mounts`, the unmount of the second one fails: all three
unmount calls are sent. -/
theorem unmountAll_best_effort_witness :
    (unmountAll threeMountsSys start).1 = none ∧
      requests (unmountAll threeMountsSys start).2.trace =
        requests start.trace ++
          rdcRequest threeMountsSys "/mount/listmounts" [] ::
            ["/mnt/a", "/mnt/b", "/mnt/c"].map (unmountRequest threeMountsSys) :=
  unmountAll_best_effort threeMountsSys start "\x7b\x7d" ["/mnt/a", "/mnt/b", "/mnt/c"] rfl rfl

/-- An object without a member named `mounts` (up to case) decodes to no mount at all,
whatever else it holds. -/
theorem decodeMountListFields_skips (members : List (String × Any)) :
    ∀ mounts : List String, (∀ p ∈ members, equalFold p.1 "mounts" = false) →
      decodeMountListFields members mounts = .ok mounts := by
  induction members with
  | nil => intro mounts _; rfl
  | cons m rest ih =>
    obtain ⟨key, value⟩ := m
    intro mounts h
    have hk : equalFold key "mounts" = false := h (key, value) (by simp)
    simp only [decodeMountListFields, hk]
    exact ih mounts (fun p hp => h p (by simp [hp]))

/-- When the reply to the listing is an object without a member named `mounts`, `unmountAll`
returns nil and sends the listing request only. -/
theorem unmountAll_without_mounts_member (S : Sys σ) (w : World σ) (response : String)
    (members : List (String × Any))
    (hlist : (runRDC S "/mount/listmounts" []
      (w.diag .log "[RemoteStorage] Unmounting all remote storages" none)).1 = .ok response)
    (hparse : S.jsonUnmarshal response = .ok (.map members))
    (hkeys : ∀ p ∈ members, equalFold p.1 "mounts" = false) :
    (unmountAll S w).1 = none ∧
      requests (unmountAll S w).2.trace =
        requests w.trace ++ [rdcRequest S "/mount/listmounts" []] := by
  have hdec : unmarshalMountList S response = .ok [] := by
    simp only [unmarshalMountList, hparse, decodeMountList]
    exact decodeMountListFields_skips members [] hkeys
  have h := unmountAll_best_effort S w response [] hlist hdec
  simpa using h

/-- C9, the code at the failing input: the engine lists one active mount, under the key
`mountPoints` as rclone does. `unmountAll` decodes the key `mounts`, finds no mount, returns
nil and sends the listing request only: no unmount call for the listed mount. With the same
list under the key `mounts` it sends the unmount call. -/
theorem unmountAll_misses_listed_mount :
    renderJSON engineListReply =
      "\x7b\"mountPoints\":[\x7b\"Fs\":\"backup:\",\"MountPoint\":\"/mnt/cosmos-storage-backup\",\"MountedOn\":\"2026-11-01T10:00:00Z\"\x7d]\x7d" ∧
    (runRDC (replySys engineListReply) "/mount/listmounts" [] start).1 =
      .ok (renderJSON engineListReply) ∧
    unmarshalMountList (replySys engineListReply) (renderJSON engineListReply) = .ok [] ∧
    (unmountAll (replySys engineListReply) start).1 = none ∧
    requests (unmountAll (replySys engineListReply) start).2.trace =
      [rdcRequest (replySys engineListReply) "/mount/listmounts" []] ∧
    requests (unmountAll (replySys mountsKeyReply) start).2.trace =
      [rdcRequest (replySys mountsKeyReply) "/mount/listmounts" [],
        unmountRequest (replySys mountsKeyReply) "/mnt/cosmos-storage-backup"] := by
  refine ⟨by decide, rfl, rfl, rfl, by decide, by decide⟩

/-- A mount that returned nil sent exactly the mount call of the remote. -/
theorem mountRemoteStorage_ok_requests (S : Sys σ) (rs : RemoteStorage) (w : World σ)
    (h : (mountRemoteStorage S rs w).1 = none) :
    (requests (mountRemoteStorage S rs w).2.trace).map some =
      (requests w.trace).map some ++ [mountRequestOf S rs] := by
  obtain ⟨ev, htr, -, h3⟩ := mountRemoteStorage_events S rs w
  rcases h3 with ⟨-, hne⟩ | ⟨uid, gid, hp, hreq⟩
  · exact absurd h hne
  · rw [htr, requests_append, hreq]
    simp [mountRequestOf, hp]

/-- A mount sends at most one request, the mount call of the remote. -/
theorem mountRemoteStorage_requests (S : Sys σ) (rs : RemoteStorage) (w : World σ) :
    requests (mountRemoteStorage S rs w).2.trace = requests w.trace ∨
      (requests (mountRemoteStorage S rs w).2.trace).map some =
        (requests w.trace).map some ++ [mountRequestOf S rs] := by
  obtain ⟨ev, htr, -, h3⟩ := mountRemoteStorage_events S rs w
  rcases h3 with ⟨hq, -⟩ | ⟨uid, gid, hp, hreq⟩
  · left; rw [htr, requests_append, hq, List.append_nil]
  · right
    rw [htr, requests_append, hreq]
    simp [mountRequestOf, hp]

/-- Remotes mounted one after the other with success: one mount call each, in list order. -/
theorem mountedAll_requests (S : Sys σ) (remotes : List RemoteStorage) :
    ∀ w w1 : World σ, mountedAll S remotes w = some w1 →
      (requests w1.trace).map some =
        (requests w.trace).map some ++ remotes.map (mountRequestOf S) := by
  induction remotes with
  | nil =>
    intro w w1 h
    simp only [mountedAll, Option.some.injEq] at h
    subst h
    simp
  | cons b rest ih =>
    intro w w1 h
    simp only [mountedAll] at h
    have hreq := mountRemoteStorage_ok_requests S b
      (w.diag .log ("[RemoteStorage] Mounting " ++ b.format) none)
    rcases hm : mountRemoteStorage S b
      (w.diag .log ("[RemoteStorage] Mounting " ++ b.format) none) with ⟨e, wb⟩
    rw [hm] at h hreq
    cases e with
    | some e => simp at h
    | none =>
      simp only at h
      rw [ih wb w1 h, hreq rfl, requests_diag]
      simp

/-- The loop of `remountAll` stops at the first mount that fails. -/
theorem remountLoop_stops (S : Sys σ) (r : RemoteStorage) (after : List RemoteStorage)
    (err : String) (w2 : World σ) (before : List RemoteStorage) : ∀ (w w1 : World σ),
    mountedAll S before w = some w1 →
    mountRemoteStorage S r (w1.diag .log ("[RemoteStorage] Mounting " ++ r.format) none) =
      (some err, w2) →
    remountLoop S (before ++ r :: after) w =
      w2.diag .majorError "[RemoteStorage] Error mounting remote storage" (some err) := by
  induction before with
  | nil =>
    intro w w1 hb hf
    simp only [mountedAll, Option.some.injEq] at hb
    subst hb
    simp only [List.nil_append, remountLoop, hf]
  | cons b rest ih =>
    intro w w1 hb hf
    simp only [mountedAll] at hb
    rcases hm : mountRemoteStorage S b
      (w.diag .log ("[RemoteStorage] Mounting " ++ b.format) none) with ⟨e, wb⟩
    rw [hm] at hb
    cases e with
    | some e => simp at hb
    | none =>
      simp only at hb
      simp only [List.cons_append, remountLoop, hm]
      exact ih wb w1 hb hf

/-- When every mount of the list returns nil, the loop of `remountAll` is the sequence of
these mounts. -/
theorem remountLoop_all (S : Sys σ) (remotes : List RemoteStorage) :
    ∀ w w1 : World σ, mountedAll S remotes w = some w1 → remountLoop S remotes w = w1 := by
  induction remotes with
  | nil =>
    intro w w1 h
    simp only [mountedAll, Option.some.injEq] at h
    simp only [remountLoop, h]
  | cons b rest ih =>
    intro w w1 h
    simp only [mountedAll] at h
    rcases hm : mountRemoteStorage S b
      (w.diag .log ("[RemoteStorage] Mounting " ++ b.format) none) with ⟨e, wb⟩
    rw [hm] at h
    cases e with
    | some e => simp at h
    | none =>
      simp only at h
      simp only [remountLoop, hm]
      exact ih wb w1 h

/-- Every list of remotes either mounts through, or splits at the first mount that fails. -/
theorem mountedAll_cases (S : Sys σ) (remotes : List RemoteStorage) :
    ∀ w : World σ, (∃ w1, mountedAll S remotes w = some w1) ∨
      ∃ before r after w1 err w2, remotes = before ++ r :: after ∧
        mountedAll S before w = some w1 ∧
        mountRemoteStorage S r (w1.diag .log ("[RemoteStorage] Mounting " ++ r.format) none) =
          (some err, w2) := by
  induction remotes with
  | nil => intro w; exact Or.inl ⟨w, rfl⟩
  | cons b rest ih =>
    intro w
    rcases hm : mountRemoteStorage S b
      (w.diag .log ("[RemoteStorage] Mounting " ++ b.format) none) with ⟨e, wb⟩
    cases e with
    | some e => exact Or.inr ⟨[], b, rest, w, e, wb, rfl, rfl, hm⟩
    | none =>
      rcases ih wb with ⟨w1, h1⟩ | ⟨before, r, after, w1, err, w2, hl, hb, hf⟩
      · exact Or.inl ⟨w1, by simp only [mountedAll, hm, h1]⟩
      · exact Or.inr ⟨b :: before, r, after, w1, err, w2, by simp [hl],
          by simp only [mountedAll, hm, hb], hf⟩

/-- The mount call of a remote, written out: a POST of the encoded payload to
`/mount/mount`, with the user and group of its ownership hint. -/
theorem mountRequestOf_spelled (S : Sys σ) (r : RemoteStorage) (uid gid : Int)
    (h : parseChown r.Chown = .ok (uid, gid)) :
    mountRequestOf S r = some
      { method := "POST", url := "http://localhost:5572/cosmos/rclone/mount/mount",
        contentType := "application/json",
        body := S.jsonEncode (mountPayload (r.Name ++ ":") (mountPointOf S r) uid gid),
        authUser := S.ProxyRCloneUser, authPass := S.ProxyRClonePwd } := by
  simp only [mountRequestOf, h, mountRequest, rdcRequest]
  rfl

/-- C10: for every list of remotes that `getStorageList` returns, `remountAll` mounts them
one after the other in list order. When every mount returns nil, every remote of the list is
mounted: one mount call each, in order, and nothing else. When the mount of some remote is
the first to fail, the remotes before it were mounted in order with one mount call each,
the failed remote accounts for at most one more request, the run ends there with one fatal
diagnostic, and no mount is attempted for the remotes after it. One of the two is the case
for every list. -/
theorem remountAll_fail_fast (S : Sys σ) (w w0 : World σ) (storageList : List RemoteStorage)
    (hlist : getStorageList S w = (.ok storageList, w0)) :
    (∀ w1, mountedAll S storageList w0 = some w1 →
      remountAll S w = w1 ∧
      (requests (remountAll S w).trace).map some =
        (requests w0.trace).map some ++ storageList.map (mountRequestOf S)) ∧
    (∀ before r after w1 err w2, storageList = before ++ r :: after →
      mountedAll S before w0 = some w1 →
      mountRemoteStorage S r
        (w1.diag .log ("[RemoteStorage] Mounting " ++ r.format) none) = (some err, w2) →
      remountAll S w =
        w2.diag .majorError "[RemoteStorage] Error mounting remote storage" (some err) ∧
      (requests w1.trace).map some =
        (requests w0.trace).map some ++ before.map (mountRequestOf S) ∧
      (requests (remountAll S w).trace = requests w1.trace ∨
        (requests (remountAll S w).trace).map some =
          (requests w1.trace).map some ++ [mountRequestOf S r])) ∧
    ((∃ w1, mountedAll S storageList w0 = some w1) ∨
      ∃ before r after w1 err w2, storageList = before ++ r :: after ∧
        mountedAll S before w0 = some w1 ∧
        mountRemoteStorage S r
          (w1.diag .log ("[RemoteStorage] Mounting " ++ r.format) none) = (some err, w2)) := by
  refine ⟨?_, ?_, mountedAll_cases S storageList w0⟩
  · intro w1 hall
    have h : remountAll S w = w1 := by
      simp only [remountAll, hlist]
      exact remountLoop_all S storageList w0 w1 hall
    exact ⟨h, by rw [h]; exact mountedAll_requests S storageList w0 w1 hall⟩
  · intro before r after w1 err w2 hsplit hbefore hfail
    subst hsplit
    have h : remountAll S w =
        w2.diag .majorError "[RemoteStorage] Error mounting remote storage" (some err) := by
      simp only [remountAll, hlist]
      exact remountLoop_stops S r after err w2 before w0 w1 hbefore hfail
    refine ⟨h, mountedAll_requests S before w0 w1 hbefore, ?_⟩
    have hr := mountRemoteStorage_requests S r
      (w1.diag .log ("[RemoteStorage] Mounting " ++ r.format) none)
    rw [hfail, requests_diag] at hr
    rw [h, requests_diag]
    exact hr

/-- C10, witness: two remotes that both mount, with the calls written out (user and group
1000 for "backup", 1001 for "photos"); and three remotes of which the second fails on its
`chown` value, where the requests are the configuration dump and the mount call of the
first remote, with one fatal diagnostic and nothing for the third. -/
theorem remountAll_fail_fast_witness :
    (requests (remountAll twoRemotesSys start).trace).map (fun q => (q.url, q.body)) =
      [("http://localhost:5572/cosmos/rclone/config/dump", ""),
        ("http://localhost:5572/cosmos/rclone/mount/mount",
          "\x7b\"fs\":\"backup:\",\"mountPoint\":\"/mnt/cosmos-storage-backup\",\"mountType\":\"mount\",\"vfsOpt\":\x7b\"CacheMode\":\"full\",\"CacheMaxAge\":\"24h\",\"ReadChunkSize\":\"10M\",\"ReadChunkSizeLimit\":\"100M\",\"UID\":1000,\"GID\":1000,\"Umask\":63\x7d,\"mountOpt\":\x7b\"AllowOther\":true\x7d\x7d"),
        ("http://localhost:5572/cosmos/rclone/mount/mount",
          "\x7b\"fs\":\"photos:\",\"mountPoint\":\"/mnt/cosmos-storage-photos\",\"mountType\":\"mount\",\"vfsOpt\":\x7b\"CacheMode\":\"full\",\"CacheMaxAge\":\"24h\",\"ReadChunkSize\":\"10M\",\"ReadChunkSizeLimit\":\"100M\",\"UID\":1001,\"GID\":1001,\"Umask\":63\x7d,\"mountOpt\":\x7b\"AllowOther\":true\x7d\x7d")] ∧
    fatalCount (remountAll twoRemotesSys start).trace = 0 ∧
    (requests (remountAll threeRemotesSys start).trace).map some =
      [some (rdcRequest threeRemotesSys "/config/dump" []),
        mountRequestOf threeRemotesSys ⟨"backup", ""⟩] ∧
    fatalCount (remountAll threeRemotesSys start).trace = 1 := by
  have hall := (remountAll_fail_fast twoRemotesSys start (getStorageList twoRemotesSys start).2
    [⟨"backup", ""⟩, ⟨"photos", "1001:1001"⟩] rfl).1
    ((mountedAll twoRemotesSys [⟨"backup", ""⟩, ⟨"photos", "1001:1001"⟩]
      (getStorageList twoRemotesSys start).2).getD start) rfl
  have hstop := (remountAll_fail_fast threeRemotesSys start
    (getStorageList threeRemotesSys start).2
    [⟨"backup", ""⟩, ⟨"photos", "1:2:3"⟩, ⟨"music", ""⟩] rfl).2.1
    [⟨"backup", ""⟩] ⟨"photos", "1:2:3"⟩ [⟨"music", ""⟩]
    ((mountedAll threeRemotesSys [⟨"backup", ""⟩] (getStorageList threeRemotesSys start).2).getD
      start)
    "[RemoteStorage] invalid chown value: 1:2:3"
    (mountRemoteStorage threeRemotesSys ⟨"photos", "1:2:3"⟩
      (((mountedAll threeRemotesSys [⟨"backup", ""⟩]
        (getStorageList threeRemotesSys start).2).getD start).diag .log
          ("[RemoteStorage] Mounting " ++ RemoteStorage.format ⟨"photos", "1:2:3"⟩) none)).2
    rfl rfl rfl
  refine ⟨?_, ?_, ?_, ?_⟩
  · rw [hall.1]; decide
  · rw [hall.1]; decide
  · decide
  · rw [hstop.1]; decide

/-! ## The configuration dump -/

/-- The test of `getStorageList` on a key, in terms of `isReservedKey`. -/
theorem not_reserved_iff (key : String) :
    (key ≠ "install_id" ∧ key ≠ "client_id" ∧ key ≠ "client_secret") ↔
      isReservedKey key = false := by
  simp [isReservedKey, not_or, and_assoc]

/-- The loop of `getStorageList` appends one remote per entry whose key is not reserved, in
the order of the entries. -/
theorem storageLoop_result (result : List (String × Any)) :
    ∀ (storageList : List RemoteStorage) (w : World σ),
      (storageLoop result storageList w).1 =
        storageList ++ (result.filter fun p => !isReservedKey p.1).map
          fun p => { Name := p.1, Chown := chownOf p.2 } := by
  induction result with
  | nil => intro storageList w; simp [storageLoop]
  | cons e rest ih =>
    obtain ⟨key, value⟩ := e
    intro storageList w
    unfold storageLoop
    simp only
    by_cases h : key ≠ "install_id" ∧ key ≠ "client_id" ∧ key ≠ "client_secret"
    · rw [if_pos h, ih]
      have hk := (not_reserved_iff key).mp h
      simp [hk]
    · rw [if_neg h, ih]
      have hk : isReservedKey key = true := by
        cases hr : isReservedKey key with
        | true => rfl
        | false => exact absurd ((not_reserved_iff key).mpr hr) h
      simp [hk]

/-- C11: when the configuration dump is received and decodes to a mapping, `getStorageList`
returns no error and one `RemoteStorage` per entry whose key is not `install_id`, `client_id`
or `client_secret`, none for these keys; the names are the keys left, and the ownership hint
of each is the string under `cosmos-chown` when the entry is a map that holds a string there,
and empty in every other case. -/
theorem getStorageList_lists_remotes (S : Sys σ) (w : World σ) (response : String)
    (result : List (String × Any))
    (hdump : (runRDC S "/config/dump" [] w).1 = .ok response)
    (hparse : S.unmarshalMap response = .ok result) :
    ∃ storageList, (getStorageList S w).1 = .ok storageList ∧
      storageList.map RemoteStorage.Name =
        (result.map Prod.fst).filter (fun key => !isReservedKey key) ∧
      storageList.map RemoteStorage.Chown =
        (result.filter fun p => !isReservedKey p.1).map (fun p => chownOf p.2) ∧
      (∀ cfg s, List.lookup "cosmos-chown" cfg = some (Any.str s) → chownOf (.map cfg) = s) ∧
      (∀ value, (∀ cfg s, value = Any.map cfg →
        List.lookup "cosmos-chown" cfg ≠ some (Any.str s)) → chownOf value = "") := by
  refine ⟨(result.filter fun p => !isReservedKey p.1).map
    fun p => { Name := p.1, Chown := chownOf p.2 }, ?_, ?_, ?_, ?_, ?_⟩
  · rcases h : runRDC S "/config/dump" [] w with ⟨r, w1⟩
    rw [h] at hdump
    have hr : r = .ok response := hdump
    subst hr
    simp only [getStorageList, h, hparse, storageLoop_result, List.nil_append]
  · simp [List.map_map, List.filter_map, Function.comp_def]
  · simp [List.map_map, Function.comp_def]
  · intro cfg s h
    simp [chownOf, h]
  · intro value h
    unfold chownOf
    split
    · next cfg =>
      split
      · next s hs => exact absurd hs (h cfg s rfl)
      · rfl
    · rfl

/-- C11, witness: a dump with the three reserved keys and four remotes. -/
theorem getStorageList_lists_remotes_witness :
    ∃ storageList, (getStorageList mixedDumpSys start).1 = .ok storageList ∧
      storageList.map RemoteStorage.Name = ["backup", "photos", "odd", "flat"] ∧
      storageList.map RemoteStorage.Chown = ["", "1001:1001", "", ""] := by
  obtain ⟨l, h1, h2, h3, -, -⟩ :=
    getStorageList_lists_remotes mixedDumpSys start "\x7b\x7d" mixedDump rfl rfl
  exact ⟨l, h1, by rw [h2]; decide, by rw [h3]; decide⟩

/-! ## The control client -/

/-- C12, counterexample: an engine that answers 204, a success status, with an empty body.
`runRDC` does not return the body: it returns the error made from the status code. -/
theorem runRDC_rejects_204 :
    (runRDC noContentSys "/core/version" [] start).1 =
      .error "unexpected status code: 204" := by
  rfl

/-- C12, amended: for every response received whose body is read, `runRDC` returns the body
unchanged and no error when the status is 200; for every other status, the other 2xx
included, it returns an error: "RClone server error: " with the error text of the body when
the body decodes to a structure whose error field is not empty, and "unexpected status code: "
with the status code in every other case. -/
theorem runRDC_answers (S : Sys σ) (path : String) (params : List String) (w : World σ)
    (resp : Response) (body : String)
    (hdo : (S.clientDo (rdcRequest S path params) w.sys).1 = .ok resp)
    (hbody : resp.body = .ok body) :
    (resp.StatusCode = 200 → (runRDC S path params w).1 = .ok body) ∧
    (resp.StatusCode ≠ 200 →
      (∀ e, S.unmarshalErrorResp body = .ok e → e ≠ "" →
        (runRDC S path params w).1 = .error ("RClone server error: " ++ e)) ∧
      ((∀ e, S.unmarshalErrorResp body = .ok e → e = "") →
        (runRDC S path params w).1 =
          .error ("unexpected status code: " ++ toString resp.StatusCode))) := by
  have hrun : (runRDC S path params w).1 =
      if resp.StatusCode ≠ 200 then
        match S.unmarshalErrorResp body with
        | .ok errorResp =>
          if errorResp ≠ "" then .error ("RClone server error: " ++ errorResp)
          else .error ("unexpected status code: " ++ toString resp.StatusCode)
        | .error _ => .error ("unexpected status code: " ++ toString resp.StatusCode)
      else .ok body := by
    unfold runRDC
    simp only [clientDo, World.diag, World.emit, hdo, hbody]
    by_cases hs : resp.StatusCode ≠ 200
    · simp only [if_pos hs]
      cases he : S.unmarshalErrorResp body with
      | error x => rfl
      | ok e =>
        simp only
        by_cases hz : e ≠ ""
        · simp only [if_pos hz]
        · simp only [if_neg hz]
    · simp only [if_neg hs]
  refine ⟨?_, ?_⟩
  · intro h200
    rw [hrun, if_neg (by simpa using h200)]
  · intro hne
    rw [hrun, if_pos hne]
    refine ⟨?_, ?_⟩
    · intro e he hnz
      simp only [he, if_pos hnz]
    · intro hall
      cases he : S.unmarshalErrorResp body with
      | error x => rfl
      | ok e =>
        have := hall e he
        subst this
        simp

/-- C12, witness: an engine that answers 200 with an empty object, and one that answers 500
with an error text. -/
theorem runRDC_answers_witness :
    (runRDC (calmSys Unit) "/core/version" [] start).1 = .ok "\x7b\x7d" ∧
    (runRDC serverErrorSys "/mount/mount" ["json", "\x7b\x7d"] start).1 =
      .error "RClone server error: remote not found" :=
  ⟨(runRDC_answers (calmSys Unit) "/core/version" [] start
      { StatusCode := 200, body := .ok "\x7b\x7d" } "\x7b\x7d" rfl rfl).1 rfl,
    ((runRDC_answers serverErrorSys "/mount/mount" ["json", "\x7b\x7d"] start
      { StatusCode := 500, body := .ok "remote not found" } "remote not found" rfl rfl).2
        (by decide)).1 "remote not found" rfl (by decide)⟩

/-! ## Starting the engine -/

/-- A nil handle from `RunRCloneCommand` makes the monitor fault, whatever the state. -/
theorem startRCloneProcess_nil_faults (S : Sys σ) (X : ExecSys σ) (now : Time)
    (g : Supervisor) (w : World σ)
    (h : (RunRCloneCommand X
      ["rcd", "--rc-user=" ++ S.ProxyRCloneUser, "--rc-pass=" ++ S.ProxyRClonePwd,
        "--config=" ++ (X.CONFIGFOLDER ++ "rclone.conf"), "--rc-baseurl=/cosmos/rclone"]
      w).1 = none) :
    startRCloneProcess S X now g w = none := by
  unfold startRCloneProcess
  simp only [h, monitorRCloneProcess]

/-- C13, the code at the failing input: `cmd.Start()` fails, so `RunRCloneCommand` logs the
error and returns a nil handle; `startRCloneProcess` stores it and hands it to the monitor,
whose `cmd.Wait()` dereferences the nil pointer: the run ends in a fault instead of
completing. With a process that starts, the same call completes. -/
theorem spawn_failure_faults_monitor :
    (RunRCloneCommand noSpawnExec
      ["rcd", "--rc-user=user", "--rc-pass=secret", "--config=/config/rclone.conf",
        "--rc-baseurl=/cosmos/rclone"] start).1 = none ∧
    startRCloneProcess (calmSys Unit) noSpawnExec (secondsIn 0) Supervisor.init start = none ∧
    (startRCloneProcess (calmSys Unit) spawnExec (secondsIn 0) Supervisor.init start).isSome =
      true := by
  refine ⟨rfl, rfl, rfl⟩

end Storage
